import Mathlib

/-!
Shallow embedding of `sync_fields_to_dev.py`: the reconciliation engine that
syncs custom fields, custom activity types, lead statuses and opportunity
statuses from a production Close.io environment to a development one.

Modelling conventions:
* A JSON record attribute that may be absent is an `Option` field
  (`none` = key absent from the record).
* Python truthiness (`if d.get('k'):`) is modelled by explicit `truthy*`
  helpers; `is not None` checks are modelled by copying the `Option` as is.
* The remote API is an oracle: `post : Nat → Except String (Option String)`
  answers the n-th create call with an error message or the id of the record
  the server returned (`new.get('id')`, hence `Option`); `del` answers delete
  calls; fetches are passed in as `Except String` values.  Every issued call
  is recorded in a `calls` trace; printed error reports become `warnings`.
* Python dicts keyed by strings are association lists with last-write-wins
  update (`upsert`); dict comprehensions over statuses use the same `upsert`,
  so duplicate keys collapse to the last value exactly as in Python.
-/

namespace CloseSync

/-- Association-list lookup by key, first match (Python dict lookup; keys are
unique by construction of `upsert`). -/
def lookupA {κ ν : Type} [DecidableEq κ] (l : List (κ × ν)) (k : κ) : Option ν :=
  match l.find? (fun p => decide (p.1 = k)) with
  | some p => some p.2
  | none => none

/-- Whether the association list has the key (`k in d` in Python). -/
def hasKey {κ ν : Type} [DecidableEq κ] (l : List (κ × ν)) (k : κ) : Bool :=
  l.any (fun p => decide (p.1 = k))

/-- Python dict assignment `d[k] = v`: overwrite in place if the key exists,
else append (insertion order preserved). -/
def upsert {κ ν : Type} [DecidableEq κ] (l : List (κ × ν)) (k : κ) (v : ν) :
    List (κ × ν) :=
  if hasKey l k then l.map (fun p => if p.1 = k then (k, v) else p)
  else l ++ [(k, v)]

/-- Python truthiness of an optional string (`None` and `""` are falsy). -/
def truthyS : Option String → Bool
  | some s => decide (s ≠ "")
  | none => false

/-- Python truthiness of an optional bool (`None` and `False` are falsy). -/
def truthyB : Option Bool → Bool
  | some b => b
  | none => false

/-- Python truthiness of an optional list (`None` and `[]` are falsy). -/
def truthyL : Option (List String) → Bool
  | some l => !l.isEmpty
  | none => false

/-- Python `str` of an optional id as interpolated into delete paths
(`f"status/lead/{status.get('id')}/"`; `None` prints as `"None"`). -/
def optIdStr : Option String → String
  | some s => s
  | none => "None"

/-! ## Data model: fetched entities -/

/-- A custom activity type record as fetched from `custom_activity/`. -/
structure ActivityType where
  id : Option String := none
  name : Option String := none
  description : Option String := none
  api_create_only : Option Bool := none
  editable_with_roles : Option (List String) := none
  deriving DecidableEq, Repr

/-- A custom field record as fetched from `custom_field/{kind}/`. -/
structure CustomField where
  id : Option String := none
  name : Option String := none
  type : Option String := none
  description : Option String := none
  choices : Option (List String) := none
  accepts_multiple_values : Option Bool := none
  required : Option Bool := none
  editable_with_roles : Option (List String) := none
  referenced_custom_type_id : Option String := none
  back_reference_is_visible : Option Bool := none
  custom_activity_type_id : Option String := none
  deriving DecidableEq, Repr

/-- A status record as fetched from `status/lead/` or `status/opportunity/`. -/
structure Status where
  id : Option String := none
  label : Option String := none
  type : Option String := none
  deriving DecidableEq, Repr

/-! ## Creation payloads -/

/-- Payload posted to `custom_activity/` (`type_data` in the source); `none`
fields are keys omitted from the dict. -/
structure TypePayload where
  name : String
  description : Option String := none
  api_create_only : Option Bool := none
  editable_with_roles : Option (List String) := none
  deriving DecidableEq, Repr

/-- `type_data` construction: `name` always, `description` and
`editable_with_roles` only when truthy, `api_create_only` when not `None`. -/
def buildTypePayload (t : ActivityType) : TypePayload :=
  { name := t.name.getD "Unknown"
    description := if truthyS t.description then t.description else none
    api_create_only := t.api_create_only
    editable_with_roles :=
      if truthyL t.editable_with_roles then t.editable_with_roles else none }

/-- Payload posted to `custom_field/{kind}/` (`field_data` in the source).
The `name` and `type` keys are always present (`type` possibly null); each
other field is a key included only under the source's condition.
`custom_activity_type_id = some v` means the key is present with value `v`
(itself optional, since the mapping stores `new_type.get('id')`). -/
structure FieldPayload where
  name : String
  type : Option String
  description : Option String := none
  choices : Option (List String) := none
  accepts_multiple_values : Option Bool := none
  required : Option Bool := none
  editable_with_roles : Option (List String) := none
  referenced_custom_type_id : Option String := none
  back_reference_is_visible : Option Bool := none
  custom_activity_type_id : Option (Option String) := none
  deriving DecidableEq, Repr

/-- `field_data` construction before the activity-specific handling:
truthiness-gated copies for most attributes, `is not None` for
`back_reference_is_visible`. -/
def buildFieldPayload (f : CustomField) : FieldPayload :=
  { name := f.name.getD "Unknown"
    type := f.type
    description := if truthyS f.description then f.description else none
    choices := if truthyL f.choices then f.choices else none
    accepts_multiple_values :=
      if truthyB f.accepts_multiple_values then f.accepts_multiple_values
      else none
    required := if truthyB f.required then f.required else none
    editable_with_roles :=
      if truthyL f.editable_with_roles then f.editable_with_roles else none
    referenced_custom_type_id :=
      if truthyS f.referenced_custom_type_id then f.referenced_custom_type_id
      else none
    back_reference_is_visible := f.back_reference_is_visible
    custom_activity_type_id := none }

/-- Payload posted to `status/lead/` (`data={'label': label}`). -/
structure LeadStatusPayload where
  label : Option String
  deriving DecidableEq, Repr

/-- Payload posted to `status/opportunity/`; the `type` key is always present,
with `status.get('type', 'active')`. -/
structure OppStatusPayload where
  label : Option String
  type : String
  deriving DecidableEq, Repr

/-- One call issued against the development API, with the payload sent. -/
inductive ApiCall where
  | getCall (path : String)
  | postType (payload : TypePayload)
  | postField (fieldType : String) (payload : FieldPayload)
  | postLeadStatus (payload : LeadStatusPayload)
  | postOppStatus (payload : OppStatusPayload)
  | deleteCall (path : String)
  deriving DecidableEq, Repr

/-- Whether a call is a mutating create (`api.post`). -/
def ApiCall.isPost : ApiCall → Bool
  | .postType _ => true
  | .postField _ _ => true
  | .postLeadStatus _ => true
  | .postOppStatus _ => true
  | _ => false

/-- Whether a call is a delete (`api.delete`). -/
def ApiCall.isDelete : ApiCall → Bool
  | .deleteCall _ => true
  | _ => false

/-- Whether a call mutates the target (create or delete). -/
def ApiCall.isMutation (c : ApiCall) : Bool :=
  c.isPost || c.isDelete

/-! ## `fetch_custom_fields` -/

/-- The endpoint list of `fetch_custom_fields`. -/
def fieldEndpoints : List (String × String) :=
  [("lead", "Lead Custom Fields"), ("contact", "Contact Custom Fields"),
   ("opportunity", "Opportunity Custom Fields"),
   ("activity", "Activity Custom Fields"), ("shared", "Shared Custom Fields")]

/-- `fetch_custom_fields`: fetch each endpoint; a succeeding endpoint is
stored in the result dict, a failing one is only reported (its key is absent
from the dict) and the loop continues.  `answer` is the remote's reply per
endpoint. -/
def fetchCustomFields
    (answer : String → Except String (List CustomField)) :
    List (String × List CustomField) × List String :=
  fieldEndpoints.foldl
    (fun acc ep =>
      match answer ep.1 with
      | .ok d => (acc.1 ++ [(ep.1, d)], acc.2)
      | .error e => (acc.1, acc.2 ++ ["Error fetching " ++ ep.2 ++ ": " ++ e]))
    ([], [])

/-! ## `create_custom_activity_types` -/

/-- Entry of the `created` list for activity types. -/
structure CreatedTypeEntry where
  name : String
  id : Option String
  prod_id : String
  deriving DecidableEq, Repr

/-- Entry of the `failed` list (`{'name': ..., 'error': ...}`). -/
structure FailedEntry where
  name : String
  error : String
  deriving DecidableEq, Repr

/-- Entry of the `skipped` list for activity types
(`{'name', 'id', 'dev_id'}`; `dev_id = mapping.get(type_id)`). -/
structure SkippedTypeEntry where
  name : String
  id : String
  dev_id : Option String
  deriving DecidableEq, Repr

/-- Loop state of `create_custom_activity_types`. -/
structure TypeAcc where
  created : List CreatedTypeEntry := []
  failed : List FailedEntry := []
  skipped : List SkippedTypeEntry := []
  mapping : List (String × Option String) := []
  calls : List ApiCall := []
  postCount : Nat := 0
  deriving Repr

/-- Loop body of `create_custom_activity_types`: skip (and record the
existing id in the mapping) when the name already exists in dev, else build
the payload and post; success registers the new id in the mapping. -/
def typeStep (existing : List ActivityType)
    (post : Nat → Except String (Option String))
    (acc : TypeAcc) (t : ActivityType) : TypeAcc :=
  let typeName := t.name.getD "Unknown"
  let typeId := t.id.getD "Unknown"
  if existing.any (fun e => decide (e.name = some typeName)) then
    let mapping' :=
      match existing.find? (fun e => decide (e.name = some typeName)) with
      | some e => upsert acc.mapping typeId e.id
      | none => acc.mapping
    { acc with
      mapping := mapping'
      skipped := acc.skipped ++
        [⟨typeName, typeId, (lookupA mapping' typeId).join⟩] }
  else
    let payload := buildTypePayload t
    match post acc.postCount with
    | .ok newId =>
      { acc with
        postCount := acc.postCount + 1
        calls := acc.calls ++ [.postType payload]
        mapping := upsert acc.mapping typeId newId
        created := acc.created ++ [⟨typeName, newId, typeId⟩] }
    | .error msg =>
      { acc with
        postCount := acc.postCount + 1
        calls := acc.calls ++ [.postType payload]
        failed := acc.failed ++ [⟨typeName, msg⟩] }

/-- Result of `create_custom_activity_types`; `mapping = none` models the
early-return dict that has no `'mapping'` key. -/
structure TypeRun where
  created : List CreatedTypeEntry
  failed : List FailedEntry
  skipped : List SkippedTypeEntry
  mapping : Option (List (String × Option String))
  calls : List ApiCall
  warnings : List String
  deriving Repr

/-- The keys of the dict returned by `create_custom_activity_types`. -/
def TypeRun.ledgerKeys (r : TypeRun) : List String :=
  match r.mapping with
  | some _ => ["created", "failed", "skipped", "mapping"]
  | none => ["created", "failed", "skipped"]

/-- `create_custom_activity_types`: early return on falsy input, else fetch
existing dev types (a failure degrades to the empty list and is reported),
then process every source type. -/
def createCustomActivityTypes (activityTypes : List ActivityType)
    (fetchExisting : Except String (List ActivityType))
    (post : Nat → Except String (Option String)) : TypeRun :=
  if activityTypes.isEmpty then
    ⟨[], [], [], none, [], []⟩
  else
    let fetched : List ActivityType × List String :=
      match fetchExisting with
      | .ok l => (l, [])
      | .error m => ([], ["Error fetching existing activity types: " ++ m])
    let acc := activityTypes.foldl (typeStep fetched.1 post)
      { calls := [.getCall "custom_activity/"] }
    ⟨acc.created, acc.failed, acc.skipped, some acc.mapping, acc.calls,
      fetched.2⟩

/-! ## `create_custom_fields` -/

/-- Entry of the `created` list for custom fields. -/
structure CreatedFieldEntry where
  type : String
  name : String
  id : Option String
  prod_id : String
  deriving DecidableEq, Repr

/-- Entry of the `skipped` list for custom fields; `reason = none` models the
already-exists skip dict that has no `'reason'` key. -/
structure SkippedFieldEntry where
  type : String
  name : String
  id : String
  reason : Option String
  deriving DecidableEq, Repr

/-- Entry of the `failed` list for custom fields. -/
structure FailedFieldEntry where
  type : String
  name : String
  error : String
  deriving DecidableEq, Repr

/-- Loop state of `create_custom_fields`; `dev` is the development server's
custom-field collections per field type (re-fetched before every field, so
it evolves as creations succeed). -/
structure FieldAcc where
  created : List CreatedFieldEntry := []
  failed : List FailedFieldEntry := []
  skipped : List SkippedFieldEntry := []
  calls : List ApiCall := []
  warnings : List String := []
  dev : List (String × List CustomField) := []
  getCount : Nat := 0
  postCount : Nat := 0
  deriving Repr

/-- The keys of the dict returned by `create_custom_fields`. -/
def FieldAcc.ledgerKeys (_ : FieldAcc) : List String :=
  ["created", "failed", "skipped"]

/-- The record the development server stores for a successfully posted
custom field (environment model: the server keeps the posted attributes and
assigns the returned id). -/
def serverField (p : FieldPayload) (newId : Option String) : CustomField :=
  { id := newId
    name := some p.name
    type := p.type
    description := p.description
    choices := p.choices
    accepts_multiple_values := p.accepts_multiple_values
    required := p.required
    editable_with_roles := p.editable_with_roles
    referenced_custom_type_id := p.referenced_custom_type_id
    back_reference_is_visible := p.back_reference_is_visible
    custom_activity_type_id := p.custom_activity_type_id.join }

/-- Loop body of `create_custom_fields` for one field of one field type:
re-fetch dev fields and skip when the name exists (a fetch failure is
reported and the check is skipped); for activity fields translate
`custom_activity_type_id` through the mapping or skip; then post. -/
def fieldStep (ft : String) (mapping : List (String × Option String))
    (getOk : Nat → Bool) (post : Nat → Except String (Option String))
    (acc : FieldAcc) (field : CustomField) : FieldAcc :=
  let fieldName := field.name.getD "Unknown"
  let fieldId := field.id.getD "Unknown"
  let devFt := (lookupA acc.dev ft).getD []
  let fetchOk := getOk acc.getCount
  let acc1 : FieldAcc :=
    { acc with
      getCount := acc.getCount + 1
      calls := acc.calls ++ [.getCall ("custom_field/" ++ ft ++ "/")]
      warnings :=
        if fetchOk then acc.warnings
        else acc.warnings ++ ["Error checking if field exists"] }
  if fetchOk && devFt.any (fun f => decide (f.name = some fieldName)) then
    { acc1 with skipped := acc1.skipped ++ [⟨ft, fieldName, fieldId, none⟩] }
  else
    let payload := buildFieldPayload field
    let routed : Except SkippedFieldEntry FieldPayload :=
      if ft = "activity" then
        if !truthyS field.custom_activity_type_id then
          .error ⟨ft, fieldName, fieldId,
            some "No custom_activity_type_id found"⟩
        else
          let pidS := field.custom_activity_type_id.getD ""
          if !mapping.isEmpty && hasKey mapping pidS then
            .ok { payload with
                  custom_activity_type_id := lookupA mapping pidS }
          else
            .error ⟨ft, fieldName, fieldId,
              some "Could not map custom_activity_type_id"⟩
      else .ok payload
    match routed with
    | .error sk => { acc1 with skipped := acc1.skipped ++ [sk] }
    | .ok p =>
      match post acc1.postCount with
      | .ok newId =>
        { acc1 with
          postCount := acc1.postCount + 1
          calls := acc1.calls ++ [.postField ft p]
          created := acc1.created ++ [⟨ft, fieldName, newId, fieldId⟩]
          dev := upsert acc1.dev ft (devFt ++ [serverField p newId]) }
      | .error msg =>
        { acc1 with
          postCount := acc1.postCount + 1
          calls := acc1.calls ++ [.postField ft p]
          failed := acc1.failed ++ [⟨ft, fieldName, msg⟩] }

/-- `create_custom_fields`: walk the fetched collections per field type
(falsy collections are skipped), processing each field in order.  `mapping`
is the activity-type mapping, flattened so that Python's `None` and `{}`
(both falsy) are the empty list. -/
def createCustomFields (allFields : List (String × List CustomField))
    (mapping : List (String × Option String))
    (dev : List (String × List CustomField))
    (getOk : Nat → Bool) (post : Nat → Except String (Option String)) :
    FieldAcc :=
  allFields.foldl
    (fun acc tf =>
      if tf.2.isEmpty then acc
      else tf.2.foldl (fieldStep tf.1 mapping getOk post) acc)
    { dev := dev }

/-! ## `sync_lead_statuses` / `sync_opportunity_statuses` -/

/-- Entry of the `created` list for statuses; `type = none` models the lead
dict, which has no `'type'` key, `type = some v` the opportunity dict with
`status.get('type')`. -/
structure CreatedStatusEntry where
  label : Option String
  id : Option String
  type : Option (Option String)
  deriving DecidableEq, Repr

/-- Entry of the `removed` list (`{'label', 'id'}`). -/
structure RemovedStatusEntry where
  label : Option String
  id : Option String
  deriving DecidableEq, Repr

/-- Entry of the `failed` list for statuses (`{'label', 'error'}`). -/
structure FailedStatusEntry where
  label : Option String
  error : String
  deriving DecidableEq, Repr

/-- Loop state of the status sync functions. -/
structure StatusAcc where
  created : List CreatedStatusEntry := []
  removed : List RemovedStatusEntry := []
  failed : List FailedStatusEntry := []
  calls : List ApiCall := []
  postCount : Nat := 0
  deleteCount : Nat := 0
  deriving Repr

/-- Result of a status sync; mirrors the returned dict
`{'created': ..., 'removed': ..., 'failed': ...}`. -/
structure StatusRun where
  created : List CreatedStatusEntry
  removed : List RemovedStatusEntry
  failed : List FailedStatusEntry
  calls : List ApiCall
  warnings : List String
  deriving Repr

/-- The keys of the dict returned by the status sync functions
(lines 391-395 and 462-466 of the source). -/
def StatusRun.ledgerKeys (_ : StatusRun) : List String :=
  ["created", "removed", "failed"]

/-- The dev-status dict `{s.get('label'): s for s in data}`: insertion order,
last value wins on duplicate labels. -/
def statusDict (data : List Status) : List (Option String × Status) :=
  data.foldl (fun d s => upsert d s.label s) []

/-- Create-loop body shared by `sync_lead_statuses` and
`sync_opportunity_statuses` (the two loops are textually identical up to the
posted payload and the created-entry shape, supplied by `mkCall`/`mkEntry`):
post each production status whose label is not a dev dict key. -/
def statusCreateStep (mkCall : Status → ApiCall)
    (mkEntry : Status → Option String → CreatedStatusEntry)
    (devDict : List (Option String × Status))
    (post : Nat → Except String (Option String))
    (acc : StatusAcc) (st : Status) : StatusAcc :=
  if hasKey devDict st.label then acc
  else
    match post acc.postCount with
    | .ok newId =>
      { acc with
        postCount := acc.postCount + 1
        calls := acc.calls ++ [mkCall st]
        created := acc.created ++ [mkEntry st newId] }
    | .error m =>
      { acc with
        postCount := acc.postCount + 1
        calls := acc.calls ++ [mkCall st]
        failed := acc.failed ++ [⟨st.label, m⟩] }

/-- Remove-loop body shared by the two status sync functions: delete each dev
dict entry whose label is not a production label. -/
def statusRemoveStep (path : String) (prod : List Status)
    (del : Nat → Except String Unit)
    (acc : StatusAcc) (kv : Option String × Status) : StatusAcc :=
  if prod.any (fun p => decide (p.label = kv.1)) then acc
  else
    match del acc.deleteCount with
    | .ok _ =>
      { acc with
        deleteCount := acc.deleteCount + 1
        calls := acc.calls ++ [.deleteCall (path ++ optIdStr kv.2.id ++ "/")]
        removed := acc.removed ++ [⟨kv.1, kv.2.id⟩] }
    | .error m =>
      { acc with
        deleteCount := acc.deleteCount + 1
        calls := acc.calls ++ [.deleteCall (path ++ optIdStr kv.2.id ++ "/")]
        failed := acc.failed ++ [⟨kv.1, m⟩] }

/-- Common body of the two status sync functions: early return on falsy
input, early return with a warning when fetching dev statuses fails, else
the create loop over production statuses followed by the remove loop over
the dev dict. -/
def syncStatusesCore (path : String) (kindLabel : String)
    (mkCall : Status → ApiCall)
    (mkEntry : Status → Option String → CreatedStatusEntry)
    (prod : List Status) (fetchDev : Except String (List Status))
    (post : Nat → Except String (Option String))
    (del : Nat → Except String Unit) : StatusRun :=
  if prod.isEmpty then ⟨[], [], [], [], []⟩
  else
    match fetchDev with
    | .error m =>
      ⟨[], [], [], [.getCall path],
        ["Error fetching existing " ++ kindLabel ++ " statuses: " ++ m]⟩
    | .ok devData =>
      let devDict := statusDict devData
      let acc1 := prod.foldl (statusCreateStep mkCall mkEntry devDict post)
        { calls := [.getCall path] }
      let acc2 := devDict.foldl (statusRemoveStep path prod del) acc1
      ⟨acc2.created, acc2.removed, acc2.failed, acc2.calls, []⟩

/-- `sync_lead_statuses`. -/
def syncLeadStatuses (prod : List Status)
    (fetchDev : Except String (List Status))
    (post : Nat → Except String (Option String))
    (del : Nat → Except String Unit) : StatusRun :=
  syncStatusesCore "status/lead/" "lead"
    (fun s => .postLeadStatus ⟨s.label⟩)
    (fun s i => ⟨s.label, i, none⟩) prod fetchDev post del

/-- The opportunity-status creation payload:
`{'label': label, 'type': status.get('type', 'active')}`. -/
def buildOppStatusPayload (s : Status) : OppStatusPayload :=
  ⟨s.label, s.type.getD "active"⟩

/-- `sync_opportunity_statuses`. -/
def syncOppStatuses (prod : List Status)
    (fetchDev : Except String (List Status))
    (post : Nat → Except String (Option String))
    (del : Nat → Except String Unit) : StatusRun :=
  syncStatusesCore "status/opportunity/" "opportunity"
    (fun s => .postOppStatus (buildOppStatusPayload s))
    (fun s i => ⟨s.label, i, some s.type⟩) prod fetchDev post del

/-! ## Environment model: the target state after a run

These model the development server, not code of the script: a successful
create stores a record with the posted attributes under the returned id, a
successful delete removes the record with the deleted id. -/

/-- Dev activity types after a run: the fetched ones plus one record per
`Created` outcome (the engine later reads only `name` and `id`). -/
def typeDevAfter (dev : List ActivityType) (r : TypeRun) : List ActivityType :=
  dev ++ r.created.map (fun e => { id := e.id, name := some e.name })

/-- Dev statuses after a run: the fetched ones plus one record per `Created`
outcome, minus the records whose id was deleted. -/
def statusDevAfter (dev : List Status) (r : StatusRun) : List Status :=
  (dev ++ r.created.map (fun e =>
      ({ id := e.id, label := e.label, type := e.type.join } : Status))).filter
    (fun s => !r.removed.any (fun rm => decide (rm.id = s.id)))

/-- Whether a field with this source name is already present in the dev
collection of the given field type (the existence test of
`create_custom_fields`, applied to a server state). -/
def nameOn (dev : List (String × List CustomField)) (ft : String)
    (f : CustomField) : Bool :=
  ((lookupA dev ft).getD []).any
    (fun e => decide (e.name = some (f.name.getD "Unknown")))

/-! ## Identity matcher: the three-way partition by natural key

The script computes this partition implicitly, through membership tests on
the target's natural keys (`name in existing_names`, `label not in
dev_statuses`, `label not in prod_status_labels`).  These definitions name
the two sides of each collection under exactly those tests. -/

/-- Source entities whose natural key matches no target entity. -/
def onlyInSource {α κ : Type} [DecidableEq κ] (key : α → κ)
    (src tgt : List α) : List α :=
  src.filter (fun s => !tgt.any (fun t => decide (key t = key s)))

/-- Source entities whose natural key matches some target entity. -/
def inBothSource {α κ : Type} [DecidableEq κ] (key : α → κ)
    (src tgt : List α) : List α :=
  src.filter (fun s => tgt.any (fun t => decide (key t = key s)))

/-- Target entities whose natural key matches no source entity. -/
def onlyInTarget {α κ : Type} [DecidableEq κ] (key : α → κ)
    (src tgt : List α) : List α :=
  tgt.filter (fun t => !src.any (fun s => decide (key s = key t)))

/-- Target entities whose natural key matches some source entity. -/
def inBothTarget {α κ : Type} [DecidableEq κ] (key : α → κ)
    (src tgt : List α) : List α :=
  tgt.filter (fun t => src.any (fun s => decide (key s = key t)))

/-- The composition done by `main`: the activity-type pass runs first and its
mapping (`results.get('mapping', {})`, i.e. `[]` when the key is absent) is
handed to the custom-field pass. -/
def runTypesThenFields (prodTypes : List ActivityType)
    (fetchTypes : Except String (List ActivityType))
    (postT : Nat → Except String (Option String))
    (allFields : List (String × List CustomField))
    (devFields : List (String × List CustomField))
    (getOk : Nat → Bool) (postF : Nat → Except String (Option String)) :
    TypeRun × FieldAcc :=
  let tr := createCustomActivityTypes prodTypes fetchTypes postT
  (tr, createCustomFields allFields (tr.mapping.getD []) devFields getOk postF)

/-! ## Generic fold and association-list lemmas -/

theorem foldl_inv {α σ : Type} (P : σ → Prop) (f : σ → α → σ) (l : List α)
    (s : σ) (h0 : P s) (hstep : ∀ s a, a ∈ l → P s → P (f s a)) :
    P (l.foldl f s) := by
  induction l generalizing s with
  | nil => exact h0
  | cons x xs ih =>
    exact ih (f s x) (hstep s x (List.mem_cons_self x xs) h0)
      (fun s a ha hp => hstep s a (List.mem_cons_of_mem x ha) hp)

theorem hasKey_iff {κ ν : Type} [DecidableEq κ] (l : List (κ × ν)) (k : κ) :
    hasKey l k = true ↔ ∃ v, (k, v) ∈ l := by
  simp only [hasKey, List.any_eq_true, decide_eq_true_eq]
  constructor
  · rintro ⟨p, hp, he⟩
    exact ⟨p.2, by simpa [← he] using hp⟩
  · rintro ⟨v, hv⟩
    exact ⟨(k, v), hv, rfl⟩

theorem hasKey_eq_false_iff {κ ν : Type} [DecidableEq κ]
    (l : List (κ × ν)) (k : κ) :
    hasKey l k = false ↔ ∀ p ∈ l, p.1 ≠ k := by
  simp [hasKey, List.any_eq_false]

theorem mem_upsert {κ ν : Type} [DecidableEq κ] {l : List (κ × ν)}
    {k k' : κ} {v v' : ν} (h : (k', v') ∈ upsert l k v) :
    (k', v') ∈ l ∨ (k' = k ∧ v' = v) := by
  unfold upsert at h
  split at h
  · rcases List.mem_map.mp h with ⟨p, hp, he⟩
    by_cases hk : p.1 = k
    · simp only [hk, if_pos rfl] at he
      right
      exact ⟨(Prod.mk.injEq _ _ _ _ ▸ he.symm).1.symm ▸ rfl,
        ((Prod.mk.injEq _ _ _ _).mp he).2.symm ▸ rfl⟩
    · simp only [if_neg hk] at he
      left
      exact he ▸ hp
  · rcases List.mem_append.mp h with h | h
    · exact Or.inl h
    · right
      simpa using h

theorem hasKey_upsert {κ ν : Type} [DecidableEq κ] (l : List (κ × ν))
    (k k' : κ) (v : ν) :
    hasKey (upsert l k v) k' = (hasKey l k' || decide (k' = k)) := by
  unfold upsert
  split
  · rename_i hl
    unfold hasKey
    rw [List.any_map]
    have hfg : ((fun p => decide (p.1 = k')) ∘
        fun p : κ × ν => if p.1 = k then (k, v) else p) =
        (fun p : κ × ν => decide (p.1 = k')) := by
      funext p
      by_cases hp : p.1 = k
      · simp [Function.comp, hp]
      · simp [Function.comp, hp]
    rw [hfg]
    by_cases hk : k' = k
    · subst hk
      unfold hasKey at hl
      simp [hl]
    · simp [hk]
  · unfold hasKey
    rw [List.any_append]
    have h1 : ([(k, v)].any fun p => decide (p.1 = k')) = decide (k' = k) := by
      simp only [List.any_cons, List.any_nil, Bool.or_false]
      exact decide_eq_decide.mpr eq_comm
    rw [h1]

theorem lookupA_upsert_self {κ ν : Type} [DecidableEq κ] (l : List (κ × ν))
    (k : κ) (v : ν) : lookupA (upsert l k v) k = some v := by
  unfold upsert
  split
  · rename_i hl
    unfold lookupA
    induction l with
    | nil => simp [hasKey] at hl
    | cons p t ih =>
      by_cases hp : p.1 = k
      · simp [List.find?, hp]
      · have ht : hasKey t k = true := by
          rw [hasKey_iff] at hl ⊢
          rcases hl with ⟨w, hw⟩
          rcases List.mem_cons.mp hw with h | h
          · exact absurd (congrArg Prod.fst h.symm) hp
          · exact ⟨w, h⟩
        simpa [List.find?, hp] using ih ht
  · rename_i hl
    unfold lookupA
    have : l.find? (fun p => decide (p.1 = k)) = none := by
      rw [List.find?_eq_none]
      intro p hp
      simp only [decide_eq_true_eq]
      exact (hasKey_eq_false_iff l k).mp (Bool.not_eq_true _ ▸ by
        simpa using hl) p hp
    rw [List.find?_append, this]
    simp [List.find?]

theorem lookupA_isSome_of_hasKey {κ ν : Type} [DecidableEq κ]
    {l : List (κ × ν)} {k : κ} (h : hasKey l k = true) :
    ∃ v, lookupA l k = some v := by
  unfold lookupA
  have h' : (l.find? fun p => decide (p.1 = k)).isSome := by
    rw [List.find?_isSome]
    unfold hasKey at h
    rcases List.any_eq_true.mp h with ⟨p, hp, he⟩
    exact ⟨p, hp, he⟩
  rcases Option.isSome_iff_exists.mp h' with ⟨q, hq⟩
  exact ⟨q.2, by rw [hq]⟩

theorem keys_upsert_nodup {κ ν : Type} [DecidableEq κ] {l : List (κ × ν)}
    (k : κ) (v : ν) (h : (l.map Prod.fst).Nodup) :
    ((upsert l k v).map Prod.fst).Nodup := by
  unfold upsert
  split
  · rw [List.map_map]
    have hfg : (Prod.fst ∘ fun p : κ × ν => if p.1 = k then (k, v) else p) =
        (Prod.fst : κ × ν → κ) := by
      funext p
      by_cases hp : p.1 = k
      · simp [Function.comp, hp]
      · simp [Function.comp, hp]
    rw [hfg]
    exact h
  · rename_i hl
    rw [List.map_append, List.nodup_append]
    refine ⟨h, by simp, ?_⟩
    intro x hx hx'
    simp only [List.map_cons, List.map_nil, List.mem_singleton] at hx'
    rcases List.mem_map.mp hx with ⟨p, hp, he⟩
    exact (hasKey_eq_false_iff l k).mp (by simpa using hl) p hp (hx' ▸ he)

/-! ## Lemmas about the dev status dict -/

theorem statusDict_hasKey_aux (d : List Status)
    (acc : List (Option String × Status)) (lab : Option String) :
    hasKey (d.foldl (fun m s => upsert m s.label s) acc) lab =
      (hasKey acc lab || d.any (fun s => decide (s.label = lab))) := by
  induction d generalizing acc with
  | nil => simp
  | cons s t ih =>
    simp only [List.foldl_cons, List.any_cons]
    rw [ih, hasKey_upsert]
    by_cases h1 : s.label = lab
    · simp [h1]
    · simp [h1, Ne.symm h1]

/-- A label is a key of the dev dict iff some dev status bears it. -/
theorem statusDict_hasKey (d : List Status) (lab : Option String) :
    hasKey (statusDict d) lab = d.any (fun s => decide (s.label = lab)) := by
  unfold statusDict
  rw [statusDict_hasKey_aux]
  simp [hasKey]

/-- Every dict entry is a dev status stored under its own label. -/
theorem statusDict_mem (d : List Status) :
    ∀ p ∈ statusDict d, p.2 ∈ d ∧ p.2.label = p.1 := by
  unfold statusDict
  refine foldl_inv
    (fun m => ∀ p : Option String × Status, p ∈ m → p.2 ∈ d ∧ p.2.label = p.1)
    _ d [] (by simp) ?_
  intro m s hs hm p hp
  rcases mem_upsert hp with h | h
  · exact hm p h
  · rcases p with ⟨k, v⟩
    rcases h with ⟨h1, h2⟩
    constructor
    · rw [h2]
      exact hs
    · rw [h2, h1]

/-- Dict keys are distinct (Python dict semantics). -/
theorem statusDict_keys_nodup (d : List Status) :
    ((statusDict d).map Prod.fst).Nodup := by
  unfold statusDict
  exact foldl_inv
    (fun m : List (Option String × Status) => (m.map Prod.fst).Nodup) _ d []
    (by simp) (fun m s _ hm => keys_upsert_nodup s.label s hm)

/-- With pairwise-distinct dev labels, each dev status is its own dict
value. -/
theorem statusDict_self (d : List Status)
    (hnd : (d.map Status.label).Nodup) :
    ∀ s ∈ d, (s.label, s) ∈ statusDict d := by
  intro s hs
  have hk : hasKey (statusDict d) s.label = true := by
    rw [statusDict_hasKey, List.any_eq_true]
    exact ⟨s, hs, by simp⟩
  rcases (hasKey_iff _ _).mp hk with ⟨v, hv⟩
  rcases statusDict_mem d (s.label, v) hv with ⟨hvd, hvl⟩
  have : v = s := List.inj_on_of_nodup_map hnd hvd hs hvl
  subst this
  exact hv

/-! ## Outcome-count lemmas: exactly one outcome per processed entity -/

theorem foldl_count_filter {α σ : Type} (g : σ → Nat) (p : α → Bool)
    (f : σ → α → σ) (l : List α) (s : σ)
    (hstep : ∀ s a, a ∈ l → g (f s a) = g s + (if p a then 1 else 0)) :
    g (l.foldl f s) = g s + (l.filter p).length := by
  induction l generalizing s with
  | nil => simp
  | cons x xs ih =>
    rw [List.foldl_cons, ih (f s x)
      (fun s a ha => hstep s a (List.mem_cons_of_mem x ha)),
      hstep s x (List.mem_cons_self x xs)]
    by_cases hp : p x = true
    · simp only [hp, if_true, List.filter_cons, List.length_cons]
      omega
    · simp only [Bool.not_eq_true] at hp
      simp [hp, List.filter_cons]

theorem foldl_pres {α σ τ : Type} (h : σ → τ) (f : σ → α → σ) (l : List α)
    (s : σ) (hstep : ∀ s' a, a ∈ l → h (f s' a) = h s') :
    h (l.foldl f s) = h s :=
  foldl_inv (fun s' => h s' = h s) f l s rfl
    (fun s' a ha hp => (hstep s' a ha).trans hp)

/-- Each field considered by `create_custom_fields` receives exactly one
outcome. -/
theorem fieldStep_outcome_count (ft : String)
    (m : List (String × Option String)) (g : Nat → Bool)
    (post : Nat → Except String (Option String)) (acc : FieldAcc)
    (f : CustomField) :
    (fieldStep ft m g post acc f).created.length +
      (fieldStep ft m g post acc f).failed.length +
      (fieldStep ft m g post acc f).skipped.length =
    acc.created.length + acc.failed.length + acc.skipped.length + 1 := by
  unfold fieldStep
  dsimp only
  split
  · simp only [List.length_append, List.length_singleton]
    omega
  · split
    · simp only [List.length_append, List.length_singleton]
      omega
    · split
      · simp only [List.length_append, List.length_singleton]
        omega
      · simp only [List.length_append, List.length_singleton]
        omega

/-- Each activity type considered by `create_custom_activity_types` receives
exactly one outcome. -/
theorem typeStep_outcome_count (existing : List ActivityType)
    (post : Nat → Except String (Option String)) (acc : TypeAcc)
    (t : ActivityType) :
    (typeStep existing post acc t).created.length +
      (typeStep existing post acc t).failed.length +
      (typeStep existing post acc t).skipped.length =
    acc.created.length + acc.failed.length + acc.skipped.length + 1 := by
  unfold typeStep
  dsimp only
  split
  · simp only [List.length_append, List.length_singleton]
    omega
  · split
    · simp only [List.length_append, List.length_singleton]
      omega
    · simp only [List.length_append, List.length_singleton]
      omega

/-- The create loop of a status sync hands out exactly one of
`Created`/`Failed` per production status missing from the dev dict. -/
theorem statusCreateStep_count (mkCall : Status → ApiCall)
    (mkEntry : Status → Option String → CreatedStatusEntry)
    (dict : List (Option String × Status))
    (post : Nat → Except String (Option String)) (acc : StatusAcc)
    (s : Status) :
    (statusCreateStep mkCall mkEntry dict post acc s).created.length +
      (statusCreateStep mkCall mkEntry dict post acc s).failed.length =
    acc.created.length + acc.failed.length +
      (if !hasKey dict s.label then 1 else 0) := by
  unfold statusCreateStep
  split
  · rename_i h
    simp [h]
  · rename_i h
    simp only [Bool.not_eq_true] at h
    split
    · simp [h]
      omega
    · simp [h]
      omega

/-- The remove loop of a status sync hands out exactly one of
`Removed`/`Failed` per dev dict entry missing from production. -/
theorem statusRemoveStep_count (path : String) (prod : List Status)
    (del : Nat → Except String Unit) (acc : StatusAcc)
    (kv : Option String × Status) :
    (statusRemoveStep path prod del acc kv).removed.length +
      (statusRemoveStep path prod del acc kv).failed.length =
    acc.removed.length + acc.failed.length +
      (if !prod.any (fun p => decide (p.label = kv.1)) then 1 else 0) := by
  unfold statusRemoveStep
  split
  · rename_i h
    simp [h]
  · rename_i h
    simp only [Bool.not_eq_true] at h
    split
    · simp [h]
      omega
    · simp [h]
      omega

/-- The create loop leaves `removed` untouched; the remove loop leaves
`created` untouched. -/
theorem statusCreateStep_removed (mkCall : Status → ApiCall)
    (mkEntry : Status → Option String → CreatedStatusEntry)
    (dict : List (Option String × Status))
    (post : Nat → Except String (Option String)) (acc : StatusAcc)
    (s : Status) :
    (statusCreateStep mkCall mkEntry dict post acc s).removed = acc.removed := by
  unfold statusCreateStep
  split
  · rfl
  · split
    · rfl
    · rfl

theorem statusRemoveStep_created (path : String) (prod : List Status)
    (del : Nat → Except String Unit) (acc : StatusAcc)
    (kv : Option String × Status) :
    (statusRemoveStep path prod del acc kv).created = acc.created := by
  unfold statusRemoveStep
  split
  · rfl
  · split
    · rfl
    · rfl

/-! ## Pass-level outcome counts -/

theorem fieldsFold_counts (ft : String) (m : List (String × Option String))
    (getOk : Nat → Bool) (post : Nat → Except String (Option String))
    (fl : List CustomField) (acc : FieldAcc) :
    (fl.foldl (fieldStep ft m getOk post) acc).created.length +
      (fl.foldl (fieldStep ft m getOk post) acc).failed.length +
      (fl.foldl (fieldStep ft m getOk post) acc).skipped.length =
    acc.created.length + acc.failed.length + acc.skipped.length + fl.length := by
  have h := foldl_count_filter
    (fun a : FieldAcc => a.created.length + a.failed.length + a.skipped.length)
    (fun _ => true) (fieldStep ft m getOk post) fl acc
    (fun s a _ => by simpa using fieldStep_outcome_count ft m getOk post s a)
  simpa using h

/-- `create_custom_fields` assigns exactly one outcome to every field of
every fetched collection. -/
theorem createCustomFields_counts (allFields : List (String × List CustomField))
    (m : List (String × Option String)) (dev : List (String × List CustomField))
    (getOk : Nat → Bool) (post : Nat → Except String (Option String)) :
    (createCustomFields allFields m dev getOk post).created.length +
      (createCustomFields allFields m dev getOk post).failed.length +
      (createCustomFields allFields m dev getOk post).skipped.length =
    (allFields.map (fun p => p.2.length)).sum := by
  unfold createCustomFields
  suffices h : ∀ (fls : List (String × List CustomField)) (acc : FieldAcc),
      (fls.foldl (fun acc tf => if tf.2.isEmpty then acc
        else tf.2.foldl (fieldStep tf.1 m getOk post) acc) acc).created.length +
      (fls.foldl (fun acc tf => if tf.2.isEmpty then acc
        else tf.2.foldl (fieldStep tf.1 m getOk post) acc) acc).failed.length +
      (fls.foldl (fun acc tf => if tf.2.isEmpty then acc
        else tf.2.foldl (fieldStep tf.1 m getOk post) acc) acc).skipped.length =
      acc.created.length + acc.failed.length + acc.skipped.length +
        (fls.map (fun p => p.2.length)).sum by
    simpa using h allFields { dev := dev }
  intro fls
  induction fls with
  | nil => simp
  | cons tf tfs ih =>
    intro acc
    simp only [List.foldl_cons, List.map_cons, List.sum_cons]
    by_cases he : tf.2.isEmpty
    · rw [if_pos he, ih acc, List.isEmpty_iff.mp he]
      simp
    · rw [if_neg he, ih, fieldsFold_counts]
      omega

theorem typesFold_counts (existing : List ActivityType)
    (post : Nat → Except String (Option String)) (src : List ActivityType)
    (acc : TypeAcc) :
    (src.foldl (typeStep existing post) acc).created.length +
      (src.foldl (typeStep existing post) acc).failed.length +
      (src.foldl (typeStep existing post) acc).skipped.length =
    acc.created.length + acc.failed.length + acc.skipped.length +
      src.length := by
  have h := foldl_count_filter
    (fun a : TypeAcc => a.created.length + a.failed.length + a.skipped.length)
    (fun _ => true) (typeStep existing post) src acc
    (fun s a _ => by simpa using typeStep_outcome_count existing post s a)
  simpa using h

/-- `create_custom_activity_types` assigns exactly one outcome to every
source activity type. -/
theorem createCustomActivityTypes_counts (src : List ActivityType)
    (fetch : Except String (List ActivityType))
    (post : Nat → Except String (Option String)) :
    (createCustomActivityTypes src fetch post).created.length +
      (createCustomActivityTypes src fetch post).failed.length +
      (createCustomActivityTypes src fetch post).skipped.length =
    src.length := by
  unfold createCustomActivityTypes
  split
  · rename_i h
    simp [List.isEmpty_iff.mp h]
  · dsimp only
    rw [typesFold_counts]
    simp

theorem statusCreateFold_counts (mkCall : Status → ApiCall)
    (mkEntry : Status → Option String → CreatedStatusEntry)
    (dict : List (Option String × Status))
    (post : Nat → Except String (Option String)) (prod : List Status)
    (acc : StatusAcc) :
    (prod.foldl (statusCreateStep mkCall mkEntry dict post) acc).created.length +
      (prod.foldl (statusCreateStep mkCall mkEntry dict post) acc).failed.length =
    acc.created.length + acc.failed.length +
      (prod.filter (fun s => !hasKey dict s.label)).length :=
  foldl_count_filter
    (fun a : StatusAcc => a.created.length + a.failed.length)
    (fun s => !hasKey dict s.label) (statusCreateStep mkCall mkEntry dict post)
    prod acc (fun s a _ => statusCreateStep_count mkCall mkEntry dict post s a)

theorem statusRemoveFold_counts (path : String) (prod : List Status)
    (del : Nat → Except String Unit)
    (dict : List (Option String × Status)) (acc : StatusAcc) :
    (dict.foldl (statusRemoveStep path prod del) acc).removed.length +
      (dict.foldl (statusRemoveStep path prod del) acc).failed.length =
    acc.removed.length + acc.failed.length +
      (dict.filter (fun kv =>
        !prod.any (fun p => decide (p.label = kv.1)))).length :=
  foldl_count_filter
    (fun a : StatusAcc => a.removed.length + a.failed.length)
    (fun kv => !prod.any (fun p => decide (p.label = kv.1)))
    (statusRemoveStep path prod del) dict acc
    (fun s a _ => statusRemoveStep_count path prod del s a)

/-- A status sync with a successful fetch assigns exactly one outcome to
every production status missing from dev and every dev dict entry missing
from production. -/
theorem syncStatusesCore_counts (path kindLabel : String)
    (mkCall : Status → ApiCall)
    (mkEntry : Status → Option String → CreatedStatusEntry)
    (prod devData : List Status)
    (post : Nat → Except String (Option String))
    (del : Nat → Except String Unit) (hne : prod ≠ []) :
    (syncStatusesCore path kindLabel mkCall mkEntry prod (.ok devData)
        post del).created.length +
      (syncStatusesCore path kindLabel mkCall mkEntry prod (.ok devData)
        post del).removed.length +
      (syncStatusesCore path kindLabel mkCall mkEntry prod (.ok devData)
        post del).failed.length =
    (prod.filter (fun s => !hasKey (statusDict devData) s.label)).length +
      ((statusDict devData).filter (fun kv =>
        !prod.any (fun p => decide (p.label = kv.1)))).length := by
  unfold syncStatusesCore
  rw [if_neg (by simpa using hne)]
  dsimp only
  have hc2created := foldl_pres (fun a : StatusAcc => a.created)
    (statusRemoveStep path prod del) (statusDict devData)
    (prod.foldl (statusCreateStep mkCall mkEntry (statusDict devData) post)
      { calls := [.getCall path] })
    (fun s' a _ => statusRemoveStep_created path prod del s' a)
  have hc1removed := foldl_pres (fun a : StatusAcc => a.removed)
    (statusCreateStep mkCall mkEntry (statusDict devData) post) prod
    { calls := [.getCall path] }
    (fun s' a _ => statusCreateStep_removed mkCall mkEntry
      (statusDict devData) post s' a)
  simp only [] at hc2created hc1removed
  have h1 : (prod.foldl (statusCreateStep mkCall mkEntry (statusDict devData)
        post) { calls := [.getCall path] }).created.length +
      (prod.foldl (statusCreateStep mkCall mkEntry (statusDict devData)
        post) { calls := [.getCall path] }).failed.length =
      (prod.filter (fun s => !hasKey (statusDict devData) s.label)).length := by
    simpa using statusCreateFold_counts mkCall mkEntry (statusDict devData)
      post prod { calls := [.getCall path] }
  have h2 := statusRemoveFold_counts path prod del (statusDict devData)
    (prod.foldl (statusCreateStep mkCall mkEntry (statusDict devData) post)
      { calls := [.getCall path] })
  have e3 : (prod.foldl (statusCreateStep mkCall mkEntry (statusDict devData)
      post) { calls := [.getCall path] }).removed = [] := by
    simpa using hc1removed
  rw [e3] at h2
  simp only [List.length_nil] at h2
  rw [hc2created]
  omega

/-- The keys of the activity-type ledger dict: `mapping` is present exactly
when the input was not falsy. -/
theorem createCustomActivityTypes_ledgerKeys (src : List ActivityType)
    (fetch : Except String (List ActivityType))
    (post : Nat → Except String (Option String)) :
    (createCustomActivityTypes src fetch post).ledgerKeys =
      if src.isEmpty then ["created", "failed", "skipped"]
      else ["created", "failed", "skipped", "mapping"] := by
  by_cases h : src.isEmpty
  · simp [createCustomActivityTypes, h, TypeRun.ledgerKeys]
  · simp [createCustomActivityTypes, h, TypeRun.ledgerKeys]

/-! ## Call-trace accounting: one create/delete attempt per outcome -/

theorem fieldStep_calls_posts (ft : String) (m : List (String × Option String))
    (g : Nat → Bool) (post : Nat → Except String (Option String))
    (acc : FieldAcc) (f : CustomField)
    (h : (acc.calls.filter ApiCall.isPost).length =
      acc.created.length + acc.failed.length) :
    ((fieldStep ft m g post acc f).calls.filter ApiCall.isPost).length =
      (fieldStep ft m g post acc f).created.length +
      (fieldStep ft m g post acc f).failed.length := by
  unfold fieldStep
  dsimp only
  split
  · simpa [List.filter_append, ApiCall.isPost] using h
  · split
    · simpa [List.filter_append, ApiCall.isPost] using h
    · split
      · simp only [List.filter_append, List.length_append,
          List.length_cons, List.length_nil]
        simp [ApiCall.isPost]
        omega
      · simp only [List.filter_append, List.length_append,
          List.length_cons, List.length_nil]
        simp [ApiCall.isPost]
        omega

/-- In `create_custom_fields`, the number of create calls issued equals the
number of `Created` plus `Failed` outcomes: every failing field was attempted
exactly once and processing of the remaining fields continued. -/
theorem createCustomFields_posts
    (allFields : List (String × List CustomField))
    (m : List (String × Option String)) (dev : List (String × List CustomField))
    (getOk : Nat → Bool) (post : Nat → Except String (Option String)) :
    ((createCustomFields allFields m dev getOk post).calls.filter
        ApiCall.isPost).length =
      (createCustomFields allFields m dev getOk post).created.length +
      (createCustomFields allFields m dev getOk post).failed.length := by
  unfold createCustomFields
  refine foldl_inv
    (fun a : FieldAcc => (a.calls.filter ApiCall.isPost).length =
      a.created.length + a.failed.length) _ allFields { dev := dev }
    (by simp) ?_
  intro a tf _ ha
  by_cases he : tf.2.isEmpty
  · simpa [he] using ha
  · simp only [he, if_neg, Bool.false_eq_true, not_false_eq_true]
    exact foldl_inv
      (fun a : FieldAcc => (a.calls.filter ApiCall.isPost).length =
        a.created.length + a.failed.length)
      (fieldStep tf.1 m getOk post) tf.2 a ha
      (fun s x _ hs => fieldStep_calls_posts tf.1 m getOk post s x hs)

theorem typeStep_calls_posts (existing : List ActivityType)
    (post : Nat → Except String (Option String)) (acc : TypeAcc)
    (t : ActivityType)
    (h : (acc.calls.filter ApiCall.isPost).length =
      acc.created.length + acc.failed.length) :
    ((typeStep existing post acc t).calls.filter ApiCall.isPost).length =
      (typeStep existing post acc t).created.length +
      (typeStep existing post acc t).failed.length := by
  unfold typeStep
  dsimp only
  split
  · simpa using h
  · split
    · simp only [List.filter_append, List.length_append]
      simp [ApiCall.isPost]
      omega
    · simp only [List.filter_append, List.length_append]
      simp [ApiCall.isPost]
      omega

/-- Same accounting for `create_custom_activity_types`. -/
theorem createCustomActivityTypes_posts (src : List ActivityType)
    (fetch : Except String (List ActivityType))
    (post : Nat → Except String (Option String)) :
    ((createCustomActivityTypes src fetch post).calls.filter
        ApiCall.isPost).length =
      (createCustomActivityTypes src fetch post).created.length +
      (createCustomActivityTypes src fetch post).failed.length := by
  unfold createCustomActivityTypes
  split
  · simp
  · dsimp only
    exact foldl_inv
      (fun a : TypeAcc => (a.calls.filter ApiCall.isPost).length =
        a.created.length + a.failed.length)
      _ src { calls := [.getCall "custom_activity/"] }
      (by simp [ApiCall.isPost])
      (fun s x _ hs => typeStep_calls_posts _ post s x hs)

theorem statusCreateStep_calls (mkCall : Status → ApiCall)
    (mkEntry : Status → Option String → CreatedStatusEntry)
    (dict : List (Option String × Status))
    (post : Nat → Except String (Option String)) (acc : StatusAcc)
    (s : Status) (hmk : ∀ st, (mkCall st).isPost = true)
    (h : (acc.calls.filter ApiCall.isMutation).length =
      acc.created.length + acc.removed.length + acc.failed.length) :
    ((statusCreateStep mkCall mkEntry dict post acc s).calls.filter
        ApiCall.isMutation).length =
      (statusCreateStep mkCall mkEntry dict post acc s).created.length +
      (statusCreateStep mkCall mkEntry dict post acc s).removed.length +
      (statusCreateStep mkCall mkEntry dict post acc s).failed.length := by
  unfold statusCreateStep
  split
  · exact h
  · split
    · simp only [List.filter_append, List.length_append]
      simp [ApiCall.isMutation, hmk s]
      omega
    · simp only [List.filter_append, List.length_append]
      simp [ApiCall.isMutation, hmk s]
      omega

theorem statusRemoveStep_calls (path : String) (prod : List Status)
    (del : Nat → Except String Unit) (acc : StatusAcc)
    (kv : Option String × Status)
    (h : (acc.calls.filter ApiCall.isMutation).length =
      acc.created.length + acc.removed.length + acc.failed.length) :
    ((statusRemoveStep path prod del acc kv).calls.filter
        ApiCall.isMutation).length =
      (statusRemoveStep path prod del acc kv).created.length +
      (statusRemoveStep path prod del acc kv).removed.length +
      (statusRemoveStep path prod del acc kv).failed.length := by
  unfold statusRemoveStep
  split
  · exact h
  · split
    · simp only [List.filter_append, List.length_append]
      simp [ApiCall.isMutation, ApiCall.isPost, ApiCall.isDelete]
      omega
    · simp only [List.filter_append, List.length_append]
      simp [ApiCall.isMutation, ApiCall.isPost, ApiCall.isDelete]
      omega

/-- In a status sync, the number of create/delete calls issued equals the
number of `Created` plus `Removed` plus `Failed` outcomes. -/
theorem syncStatusesCore_mutations (path kindLabel : String)
    (mkCall : Status → ApiCall)
    (mkEntry : Status → Option String → CreatedStatusEntry)
    (prod : List Status) (fetchDev : Except String (List Status))
    (post : Nat → Except String (Option String))
    (del : Nat → Except String Unit)
    (hmk : ∀ st, (mkCall st).isPost = true) :
    ((syncStatusesCore path kindLabel mkCall mkEntry prod fetchDev post
        del).calls.filter ApiCall.isMutation).length =
      (syncStatusesCore path kindLabel mkCall mkEntry prod fetchDev post
        del).created.length +
      (syncStatusesCore path kindLabel mkCall mkEntry prod fetchDev post
        del).removed.length +
      (syncStatusesCore path kindLabel mkCall mkEntry prod fetchDev post
        del).failed.length := by
  unfold syncStatusesCore
  split
  · simp
  · split
    · simp [ApiCall.isMutation, ApiCall.isPost, ApiCall.isDelete]
    · dsimp only
      refine foldl_inv
        (fun a : StatusAcc => (a.calls.filter ApiCall.isMutation).length =
          a.created.length + a.removed.length + a.failed.length)
        _ _ _ ?_ (fun s x _ hs => statusRemoveStep_calls path prod del s x hs)
      refine foldl_inv
        (fun a : StatusAcc => (a.calls.filter ApiCall.isMutation).length =
          a.created.length + a.removed.length + a.failed.length)
        _ _ _ ?_
        (fun s x _ hs =>
          statusCreateStep_calls mkCall mkEntry _ post s x hmk hs)
      simp [ApiCall.isMutation, ApiCall.isPost, ApiCall.isDelete]

/-! ## Deletion policy lemmas -/

theorem fieldStep_no_delete (ft : String) (m : List (String × Option String))
    (g : Nat → Bool) (post : Nat → Except String (Option String))
    (acc : FieldAcc) (f : CustomField)
    (h : ∀ c ∈ acc.calls, c.isDelete = false) :
    ∀ c ∈ (fieldStep ft m g post acc f).calls, c.isDelete = false := by
  unfold fieldStep
  dsimp only
  split
  · intro c hc
    rcases List.mem_append.mp hc with hc | hc
    · exact h c hc
    · simp only [List.mem_singleton] at hc
      simp [hc, ApiCall.isDelete]
  · split
    · intro c hc
      rcases List.mem_append.mp hc with hc | hc
      · exact h c hc
      · simp only [List.mem_singleton] at hc
        simp [hc, ApiCall.isDelete]
    · split
      · intro c hc
        rcases List.mem_append.mp hc with hc | hc
        · rcases List.mem_append.mp hc with hc | hc
          · exact h c hc
          · simp only [List.mem_singleton] at hc
            simp [hc, ApiCall.isDelete]
        · simp only [List.mem_singleton] at hc
          simp [hc, ApiCall.isDelete]
      · intro c hc
        rcases List.mem_append.mp hc with hc | hc
        · rcases List.mem_append.mp hc with hc | hc
          · exact h c hc
          · simp only [List.mem_singleton] at hc
            simp [hc, ApiCall.isDelete]
        · simp only [List.mem_singleton] at hc
          simp [hc, ApiCall.isDelete]

/-- `create_custom_fields` never issues a delete call. -/
theorem createCustomFields_no_delete
    (allFields : List (String × List CustomField))
    (m : List (String × Option String)) (dev : List (String × List CustomField))
    (getOk : Nat → Bool) (post : Nat → Except String (Option String)) :
    ∀ c ∈ (createCustomFields allFields m dev getOk post).calls,
      c.isDelete = false := by
  unfold createCustomFields
  refine foldl_inv
    (fun a : FieldAcc => ∀ c ∈ a.calls, c.isDelete = false) _ allFields
    { dev := dev } (by simp) ?_
  intro a tf _ ha
  by_cases he : tf.2.isEmpty
  · simpa [he] using ha
  · simp only [he, Bool.false_eq_true, if_false]
    exact foldl_inv (fun a : FieldAcc => ∀ c ∈ a.calls, c.isDelete = false)
      (fieldStep tf.1 m getOk post) tf.2 a ha
      (fun s x _ hs => fieldStep_no_delete tf.1 m getOk post s x hs)

theorem typeStep_no_delete (existing : List ActivityType)
    (post : Nat → Except String (Option String)) (acc : TypeAcc)
    (t : ActivityType) (h : ∀ c ∈ acc.calls, c.isDelete = false) :
    ∀ c ∈ (typeStep existing post acc t).calls, c.isDelete = false := by
  unfold typeStep
  dsimp only
  split
  · exact h
  · split
    · intro c hc
      rcases List.mem_append.mp hc with hc | hc
      · exact h c hc
      · simp only [List.mem_singleton] at hc
        simp [hc, ApiCall.isDelete]
    · intro c hc
      rcases List.mem_append.mp hc with hc | hc
      · exact h c hc
      · simp only [List.mem_singleton] at hc
        simp [hc, ApiCall.isDelete]

/-- `create_custom_activity_types` never issues a delete call. -/
theorem createCustomActivityTypes_no_delete (src : List ActivityType)
    (fetch : Except String (List ActivityType))
    (post : Nat → Except String (Option String)) :
    ∀ c ∈ (createCustomActivityTypes src fetch post).calls,
      c.isDelete = false := by
  unfold createCustomActivityTypes
  split
  · simp
  · dsimp only
    exact foldl_inv (fun a : TypeAcc => ∀ c ∈ a.calls, c.isDelete = false)
      _ src { calls := [.getCall "custom_activity/"] }
      (by simp [ApiCall.isDelete])
      (fun s x _ hs => typeStep_no_delete _ post s x hs)

/-- Among assoc-list entries with pairwise-distinct keys, exactly one bears
a key that occurs. -/
theorem filter_key_unique {κ ν : Type} [DecidableEq κ] (l : List (κ × ν))
    (x : κ × ν) (hx : x ∈ l) (hnd : (l.map Prod.fst).Nodup) :
    (l.filter (fun y => decide (y.1 = x.1))).length = 1 := by
  induction l with
  | nil => cases hx
  | cons h t ih =>
    rw [List.map_cons, List.nodup_cons] at hnd
    rcases List.mem_cons.mp hx with hx' | hx'
    · subst hx'
      have ht : t.filter (fun y => decide (y.1 = x.1)) = [] := by
        rw [List.filter_eq_nil_iff]
        intro y hy
        simp only [decide_eq_true_eq]
        intro he
        exact hnd.1 (he ▸ List.mem_map_of_mem Prod.fst hy)
      simp [List.filter_cons, ht]
    · have hne : ¬(h.1 = x.1) := by
        intro he
        exact hnd.1 (he ▸ List.mem_map_of_mem Prod.fst hx')
      simp only [List.filter_cons, decide_eq_true_eq, hne, if_false]
      exact ih hx' hnd.2

/-- Outcome accounting for one target-only status label through the remove
loop. -/
theorem statusRemoveStep_label_count (path : String) (prod : List Status)
    (del : Nat → Except String Unit) (k : Option String) (acc : StatusAcc)
    (kv : Option String × Status) :
    ((statusRemoveStep path prod del acc kv).removed.filter
        (fun e => decide (e.label = k))).length +
      ((statusRemoveStep path prod del acc kv).failed.filter
        (fun e => decide (e.label = k))).length =
    (acc.removed.filter (fun e => decide (e.label = k))).length +
      (acc.failed.filter (fun e => decide (e.label = k))).length +
      (if decide (kv.1 = k) &&
          !prod.any (fun p => decide (p.label = kv.1)) then 1 else 0) := by
  unfold statusRemoveStep
  split
  · rename_i h
    simp [h]
  · rename_i h
    simp only [Bool.not_eq_true] at h
    split
    · by_cases hk : kv.1 = k
      · rw [hk] at h
        simp [h, hk, List.filter_append]
        omega
      · simp [h, hk, List.filter_append]
    · by_cases hk : kv.1 = k
      · rw [hk] at h
        simp [h, hk, List.filter_append]
        omega
      · simp [h, hk, List.filter_append]

/-- The create loop never records an outcome under a label missing from
production (its failures carry production labels). -/
theorem statusCreateStep_label_count (mkCall : Status → ApiCall)
    (mkEntry : Status → Option String → CreatedStatusEntry)
    (dict : List (Option String × Status))
    (post : Nat → Except String (Option String)) (prod : List Status)
    (k : Option String) (acc : StatusAcc) (s : Status) (hs : s ∈ prod)
    (hk : prod.any (fun p => decide (p.label = k)) = false) :
    ((statusCreateStep mkCall mkEntry dict post acc s).removed.filter
        (fun e => decide (e.label = k))).length +
      ((statusCreateStep mkCall mkEntry dict post acc s).failed.filter
        (fun e => decide (e.label = k))).length =
    (acc.removed.filter (fun e => decide (e.label = k))).length +
      (acc.failed.filter (fun e => decide (e.label = k))).length := by
  have hsk : ¬(s.label = k) := by
    intro he
    rw [List.any_eq_false] at hk
    exact absurd (by simp [he]) (hk s hs)
  unfold statusCreateStep
  split
  · rfl
  · split
    · rfl
    · simp [List.filter_append, hsk]

/-- A status sync assigns exactly one of `Removed`/`Failed` to each dev dict
entry whose label is absent from production. -/
theorem syncStatusesCore_target_only (path kindLabel : String)
    (mkCall : Status → ApiCall)
    (mkEntry : Status → Option String → CreatedStatusEntry)
    (prod devData : List Status)
    (post : Nat → Except String (Option String))
    (del : Nat → Except String Unit) (kv : Option String × Status)
    (hkv : kv ∈ statusDict devData)
    (hk : prod.any (fun p => decide (p.label = kv.1)) = false)
    (hne : prod ≠ []) :
    ((syncStatusesCore path kindLabel mkCall mkEntry prod (.ok devData) post
        del).removed.filter (fun e => decide (e.label = kv.1))).length +
      ((syncStatusesCore path kindLabel mkCall mkEntry prod (.ok devData) post
        del).failed.filter (fun e => decide (e.label = kv.1))).length = 1 := by
  unfold syncStatusesCore
  rw [if_neg (by simpa using hne)]
  dsimp only
  have h1 := foldl_pres
    (fun a : StatusAcc =>
      (a.removed.filter (fun e => decide (e.label = kv.1))).length +
      (a.failed.filter (fun e => decide (e.label = kv.1))).length)
    (statusCreateStep mkCall mkEntry (statusDict devData) post) prod
    { calls := [.getCall path] }
    (fun s' a ha => statusCreateStep_label_count mkCall mkEntry
      (statusDict devData) post prod kv.1 s' a ha hk)
  have h2 := foldl_count_filter
    (fun a : StatusAcc =>
      (a.removed.filter (fun e => decide (e.label = kv.1))).length +
      (a.failed.filter (fun e => decide (e.label = kv.1))).length)
    (fun kv' => decide (kv'.1 = kv.1) &&
      !prod.any (fun p => decide (p.label = kv'.1)))
    (statusRemoveStep path prod del) (statusDict devData)
    (prod.foldl (statusCreateStep mkCall mkEntry (statusDict devData) post)
      { calls := [.getCall path] })
    (fun s' a _ => statusRemoveStep_label_count path prod del kv.1 s' a)
  have h3 : ((statusDict devData).filter (fun kv' => decide (kv'.1 = kv.1) &&
      !prod.any (fun p => decide (p.label = kv'.1)))).length = 1 := by
    have hcong : (statusDict devData).filter (fun kv' =>
        decide (kv'.1 = kv.1) &&
          !prod.any (fun p => decide (p.label = kv'.1))) =
        (statusDict devData).filter (fun y => decide (y.1 = kv.1)) := by
      apply List.filter_congr
      intro x _
      by_cases hx : x.1 = kv.1
      · rw [hx]
        simp [hk]
      · simp [hx]
    rw [hcong]
    exact filter_key_unique (statusDict devData) kv hkv
      (statusDict_keys_nodup devData)
  simp only [] at h1 h2
  rw [h2, h3, h1]
  simp

/-! ## Partition lemmas -/

theorem filter_partition_length {α : Type} (p : α → Bool) (l : List α) :
    (l.filter p).length + (l.filter (fun a => !p a)).length = l.length := by
  induction l with
  | nil => simp
  | cons x xs ih =>
    by_cases hp : p x
    · simp [List.filter_cons, hp]
      omega
    · simp only [Bool.not_eq_true] at hp
      simp [List.filter_cons, hp]
      omega

theorem filter_map_length {α β : Type} (f : α → β) (p : β → Bool)
    (l : List α) :
    ((l.map f).filter p).length = (l.filter (fun a => p (f a))).length := by
  induction l with
  | nil => simp
  | cons x xs ih =>
    by_cases hp : p (f x)
    · simp [List.filter_cons, hp, ih]
    · simp only [Bool.not_eq_true] at hp
      simp [List.filter_cons, hp, ih]

/-- With pairwise-distinct labels, the dev dict is the dev list paired with
its labels in order. -/
theorem statusDict_eq_map (d : List Status)
    (hnd : (d.map Status.label).Nodup) :
    statusDict d = d.map (fun s => (s.label, s)) := by
  unfold statusDict
  suffices h : ∀ (acc : List (Option String × Status)),
      (∀ s ∈ d, hasKey acc s.label = false) →
      (d.map Status.label).Nodup →
      d.foldl (fun m s => upsert m s.label s) acc =
        acc ++ d.map (fun s => (s.label, s)) by
    simpa using h [] (by simp [hasKey]) hnd
  clear hnd
  induction d with
  | nil => simp
  | cons s t ih =>
    intro acc hk hnd
    rw [List.map_cons, List.nodup_cons] at hnd
    have h1 : upsert acc s.label s = acc ++ [(s.label, s)] := by
      unfold upsert
      rw [if_neg]
      simp [hk s (List.mem_cons_self s t)]
    rw [List.foldl_cons, h1, List.map_cons]
    rw [ih (acc ++ [(s.label, s)]) ?_ hnd.2]
    · simp
    · intro x hx
      unfold hasKey
      rw [List.any_append]
      have h2 : hasKey acc x.label = false :=
        hk x (List.mem_cons_of_mem s hx)
      unfold hasKey at h2
      rw [h2]
      have h3 : ¬(s.label = x.label) := fun he =>
        hnd.1 (he ▸ List.mem_map_of_mem Status.label hx)
      simp [h3]

/-- With every create succeeding, the create loop's `Created` outcomes are
exactly the production statuses missing from the dev dict. -/
theorem statusCreateFold_created_all_ok (mkCall : Status → ApiCall)
    (mkEntry : Status → Option String → CreatedStatusEntry)
    (dict : List (Option String × Status))
    (post : Nat → Except String (Option String)) (prod : List Status)
    (acc : StatusAcc) (hp : ∀ n, ∃ i, post n = Except.ok i) :
    (prod.foldl (statusCreateStep mkCall mkEntry dict post) acc).created.length =
      acc.created.length +
        (prod.filter (fun s => !hasKey dict s.label)).length := by
  refine foldl_count_filter (fun a : StatusAcc => a.created.length)
    (fun s => !hasKey dict s.label) _ prod acc ?_
  intro a s _
  unfold statusCreateStep
  by_cases hk : hasKey dict s.label
  · simp [hk]
  · simp only [Bool.not_eq_true] at hk
    rcases hp a.postCount with ⟨i, hi⟩
    simp [hk, hi]

/-- With every delete succeeding, the remove loop's `Removed` outcomes are
exactly the dev dict entries missing from production. -/
theorem statusRemoveFold_removed_all_ok (path : String) (prod : List Status)
    (del : Nat → Except String Unit)
    (dict : List (Option String × Status)) (acc : StatusAcc)
    (hd : ∀ n, del n = Except.ok ()) :
    (dict.foldl (statusRemoveStep path prod del) acc).removed.length =
      acc.removed.length + (dict.filter (fun kv =>
        !prod.any (fun p => decide (p.label = kv.1)))).length := by
  refine foldl_count_filter (fun a : StatusAcc => a.removed.length)
    (fun kv => !prod.any (fun p => decide (p.label = kv.1))) _ dict acc ?_
  intro a kv _
  unfold statusRemoveStep
  by_cases hk : prod.any (fun p => decide (p.label = kv.1))
  · simp [hk]
  · simp only [Bool.not_eq_true] at hk
    simp [hk, hd a.deleteCount]

/-! ## Claim C9 -/

/-- C9: partition completeness.  Under the code's natural-key membership
tests, every source entity lands in exactly one of `onlyInSource`/`inBoth`
and every target entity in exactly one of `onlyInTarget`/`inBoth`, with the
cardinality identities; and the lead-status sync realises the partition:
with all creates/deletes succeeding it creates exactly `onlyInSource` and
removes exactly `onlyInTarget` (dev labels distinct). -/
theorem c9_partition_completeness :
    (∀ (α κ : Type) (inst : DecidableEq κ) (key : α → κ) (src tgt : List α),
      (@onlyInSource α κ inst key src tgt).length +
        (@inBothSource α κ inst key src tgt).length = src.length ∧
      (@onlyInTarget α κ inst key src tgt).length +
        (@inBothTarget α κ inst key src tgt).length = tgt.length ∧
      (∀ s ∈ src, s ∈ @onlyInSource α κ inst key src tgt ↔
        ¬s ∈ @inBothSource α κ inst key src tgt) ∧
      (∀ t ∈ tgt, t ∈ @onlyInTarget α κ inst key src tgt ↔
        ¬t ∈ @inBothTarget α κ inst key src tgt)) ∧
    (∀ (prod devData : List Status)
        (post : Nat → Except String (Option String))
        (del : Nat → Except String Unit), prod ≠ [] →
      (∀ n, ∃ i, post n = Except.ok i) → (∀ n, del n = Except.ok ()) →
      (devData.map Status.label).Nodup →
      (syncLeadStatuses prod (.ok devData) post del).created.length =
        (onlyInSource Status.label prod devData).length ∧
      (syncLeadStatuses prod (.ok devData) post del).removed.length =
        (onlyInTarget Status.label prod devData).length) := by
  constructor
  · intro α κ inst key src tgt
    refine ⟨?_, ?_, ?_, ?_⟩
    · have h := filter_partition_length
        (fun s => tgt.any (fun t => decide (key t = key s))) src
      unfold onlyInSource inBothSource
      omega
    · have h := filter_partition_length
        (fun t => src.any (fun s => decide (key s = key t))) tgt
      unfold onlyInTarget inBothTarget
      omega
    · intro s hs
      unfold onlyInSource inBothSource
      simp [List.mem_filter, hs]
    · intro t ht
      unfold onlyInTarget inBothTarget
      simp [List.mem_filter, ht]
  · intro prod devData post del hne hp hd hnd
    show _ ∧ _
    unfold syncLeadStatuses syncStatusesCore
    rw [if_neg (by simpa using hne)]
    dsimp only
    have hc2created := foldl_pres (fun a : StatusAcc => a.created)
      (statusRemoveStep "status/lead/" prod del) (statusDict devData)
      (prod.foldl (statusCreateStep (fun s => .postLeadStatus ⟨s.label⟩)
        (fun s i => ⟨s.label, i, none⟩) (statusDict devData) post)
        { calls := [.getCall "status/lead/"] })
      (fun s' a _ => statusRemoveStep_created "status/lead/" prod del s' a)
    have hc1removed := foldl_pres (fun a : StatusAcc => a.removed)
      (statusCreateStep (fun s => .postLeadStatus ⟨s.label⟩)
        (fun s i => ⟨s.label, i, none⟩) (statusDict devData) post) prod
      { calls := [.getCall "status/lead/"] }
      (fun s' a _ => statusCreateStep_removed _ _ (statusDict devData) post
        s' a)
    simp only [] at hc2created hc1removed
    constructor
    · rw [hc2created]
      have h1 := statusCreateFold_created_all_ok
        (fun s => .postLeadStatus ⟨s.label⟩) (fun s i => ⟨s.label, i, none⟩)
        (statusDict devData) post prod { calls := [.getCall "status/lead/"] }
        hp
      rw [h1]
      have h2 : prod.filter (fun s => !hasKey (statusDict devData) s.label) =
          onlyInSource Status.label prod devData := by
        unfold onlyInSource
        apply List.filter_congr
        intro x _
        rw [statusDict_hasKey]
      rw [h2]
      simp
    · have h3 := statusRemoveFold_removed_all_ok "status/lead/" prod del
        (statusDict devData)
        (prod.foldl (statusCreateStep (fun s => .postLeadStatus ⟨s.label⟩)
          (fun s i => ⟨s.label, i, none⟩) (statusDict devData) post)
          { calls := [.getCall "status/lead/"] }) hd
      rw [h3, hc1removed]
      have h4 : ((statusDict devData).filter (fun kv =>
          !prod.any (fun p => decide (p.label = kv.1)))).length =
          (onlyInTarget Status.label prod devData).length := by
        rw [statusDict_eq_map devData hnd, filter_map_length]
        rfl
      rw [h4]
      simp

/-- C9 witness: the program-tie part applied at Scenario A. -/
theorem c9_witness :
    ([{ id := some "p1", label := some "New" },
      { id := some "p2", label := some "Qualified" }] : List Status) ≠ [] ∧
    (syncLeadStatuses
      [{ id := some "p1", label := some "New" },
       { id := some "p2", label := some "Qualified" }]
      (.ok [{ id := some "d1", label := some "New" },
            { id := some "d2", label := some "Old" }])
      (fun _ => .ok (some "n1")) (fun _ => .ok ())).created.length =
      (onlyInSource Status.label
        [{ id := some "p1", label := some "New" },
         { id := some "p2", label := some "Qualified" }]
        [{ id := some "d1", label := some "New" },
         { id := some "d2", label := some "Old" }]).length :=
  ⟨by decide, (c9_partition_completeness.2
    [{ id := some "p1", label := some "New" },
     { id := some "p2", label := some "Qualified" }]
    [{ id := some "d1", label := some "New" },
     { id := some "d2", label := some "Old" }]
    (fun _ => .ok (some "n1")) (fun _ => .ok ())
    (by decide) (fun n => ⟨some "n1", rfl⟩) (fun n => rfl) (by decide)).1⟩

/-! ## Claims C10 and C3: per-field routing -/

/-- C10: the already-exists check runs before the cross-reference check.  An
activity field whose name already exists in dev is skipped as already
existing (a skip entry without a `reason` key), no create call is issued,
and the result is the same for any two reference maps — the map is never
consulted. -/
theorem c10_exists_check_first
    (m₁ m₂ : List (String × Option String)) (getOk : Nat → Bool)
    (post : Nat → Except String (Option String)) (acc : FieldAcc)
    (f : CustomField)
    (hg : getOk acc.getCount = true)
    (hx : ((lookupA acc.dev "activity").getD []).any
      (fun g => decide (g.name = some (f.name.getD "Unknown"))) = true) :
    fieldStep "activity" m₁ getOk post acc f =
      fieldStep "activity" m₂ getOk post acc f ∧
    (fieldStep "activity" m₁ getOk post acc f).skipped =
      acc.skipped ++ [⟨"activity", f.name.getD "Unknown",
        f.id.getD "Unknown", none⟩] ∧
    (fieldStep "activity" m₁ getOk post acc f).calls =
      acc.calls ++ [.getCall "custom_field/activity/"] ∧
    (fieldStep "activity" m₁ getOk post acc f).created = acc.created ∧
    (fieldStep "activity" m₁ getOk post acc f).postCount = acc.postCount := by
  unfold fieldStep
  dsimp only
  rw [hg]
  simp only [hx, Bool.true_and, if_true, hg, if_pos]
  simp

/-- C10 witness. -/
theorem c10_witness :
    ((fun _ : Nat => true) 0 = true) ∧
    (fieldStep "activity" [("at_1", some "at_9")] (fun _ => true)
        (fun _ => .ok (some "f9"))
        { dev := [("activity", [{ name := some "CallNotes" }])] }
        { name := some "CallNotes" }).skipped =
      [⟨"activity", "CallNotes", "Unknown", none⟩] :=
  ⟨rfl, by
    have h := c10_exists_check_first [("at_1", some "at_9")] []
      (fun _ => true) (fun _ => .ok (some "f9"))
      { dev := [("activity", [{ name := some "CallNotes" }])] }
      { name := some "CallNotes" } (by decide) (by decide)
    rw [h.2.1]
    decide⟩

/-- C3: routing of a source-only activity custom field.  With the dev fetch
succeeding and the name not present in dev: a falsy
`custom_activity_type_id` yields a skip with the missing-reference reason
and no create call; a truthy id absent from the mapping (or an empty/absent
mapping) yields a skip with the unmapped-reference reason and no create
call; a mapped id yields a create call whose payload carries the translated
id `lookupA m pid`. -/
theorem c3_activity_reference_routing
    (m : List (String × Option String)) (getOk : Nat → Bool)
    (post : Nat → Except String (Option String)) (acc : FieldAcc)
    (f : CustomField)
    (hg : getOk acc.getCount = true)
    (hx : ((lookupA acc.dev "activity").getD []).any
      (fun g => decide (g.name = some (f.name.getD "Unknown"))) = false) :
    (truthyS f.custom_activity_type_id = false →
      (fieldStep "activity" m getOk post acc f).skipped =
        acc.skipped ++ [⟨"activity", f.name.getD "Unknown",
          f.id.getD "Unknown", some "No custom_activity_type_id found"⟩] ∧
      (fieldStep "activity" m getOk post acc f).calls =
        acc.calls ++ [.getCall "custom_field/activity/"] ∧
      (fieldStep "activity" m getOk post acc f).postCount = acc.postCount) ∧
    (truthyS f.custom_activity_type_id = true →
      hasKey m (f.custom_activity_type_id.getD "") = false →
      (fieldStep "activity" m getOk post acc f).skipped =
        acc.skipped ++ [⟨"activity", f.name.getD "Unknown",
          f.id.getD "Unknown", some "Could not map custom_activity_type_id"⟩] ∧
      (fieldStep "activity" m getOk post acc f).calls =
        acc.calls ++ [.getCall "custom_field/activity/"] ∧
      (fieldStep "activity" m getOk post acc f).postCount = acc.postCount) ∧
    (truthyS f.custom_activity_type_id = true →
      hasKey m (f.custom_activity_type_id.getD "") = true →
      (fieldStep "activity" m getOk post acc f).calls =
        acc.calls ++ [.getCall "custom_field/activity/",
          .postField "activity"
            { (buildFieldPayload f) with custom_activity_type_id :=
                (lookupA m (f.custom_activity_type_id.getD "")) }] ∧
      (fieldStep "activity" m getOk post acc f).postCount =
        acc.postCount + 1 ∧
      (fieldStep "activity" m getOk post acc f).skipped = acc.skipped) := by
  unfold fieldStep
  dsimp only
  rw [hg]
  simp only [hx, Bool.true_and, Bool.false_eq_true, if_false]
  refine ⟨?_, ?_, ?_⟩
  · intro ht
    simp only [ht, Bool.not_false, if_pos, if_true, reduceIte]
    simp
  · intro ht hk
    have hne : (!m.isEmpty && hasKey m (f.custom_activity_type_id.getD "")) =
        false := by
      rw [hk]
      simp
    simp only [ht, Bool.not_true, Bool.false_eq_true, if_false, hne, if_true,
      reduceIte]
    simp
  · intro ht hk
    have hne : (!m.isEmpty && hasKey m (f.custom_activity_type_id.getD "")) =
        true := by
      rcases (hasKey_iff m _).mp hk with ⟨v, hv⟩
      rcases m with _ | _
      · cases hv
      · simpa using hk
    simp only [ht, Bool.not_true, Bool.false_eq_true, if_false, hne, if_true,
      reduceIte]
    cases hpost : post acc.postCount with
    | ok i => simp [hpost]
    | error e => simp [hpost]

/-- C3 witness: the mapped case at a concrete activity field. -/
theorem c3_witness :
    ((fun _ : Nat => true) 0 = true) ∧
    (fieldStep "activity" [("at_1", some "at_9")] (fun _ => true)
        (fun _ => .ok (some "f9")) { dev := [] }
        { name := some "CallNotes",
          custom_activity_type_id := some "at_1" }).calls =
      [.getCall "custom_field/activity/",
        .postField "activity"
          { (buildFieldPayload
              { name := some "CallNotes",
                custom_activity_type_id := some "at_1" }) with
            custom_activity_type_id :=
              lookupA [("at_1", some "at_9")] "at_1" }] :=
  ⟨rfl, by
    have h := c3_activity_reference_routing [("at_1", some "at_9")]
      (fun _ => true) (fun _ => .ok (some "f9")) { dev := [] }
      { name := some "CallNotes", custom_activity_type_id := some "at_1" }
      (by decide) (by decide)
    have h3 := h.2.2 (by decide) (by decide)
    rw [h3.1]
    rfl⟩

/-! ## Claim C4 -/

theorem truthyS_isSome {o : Option String} (h : truthyS o = true) :
    o.isSome = true := by
  cases o
  · cases h
  · rfl

theorem truthyB_isSome {o : Option Bool} (h : truthyB o = true) :
    o.isSome = true := by
  cases o
  · cases h
  · rfl

theorem truthyL_isSome {o : Option (List String)} (h : truthyL o = true) :
    o.isSome = true := by
  cases o
  · cases h
  · rfl

/-- C4, counterexample: the claim says a kind-declared optional attribute is
in the creation payload iff it is present on the source entity, and an
absent attribute is never sent as a default.  But (1) an opportunity status
with no `type` attribute is posted with `type = "active"` — a default for an
absent attribute — and (2) a custom field with `required` present but
`False` has `required` omitted from the payload although the attribute is
present on the source. -/
theorem c4_counterexample :
    (syncOppStatuses [{ id := some "o1", label := some "Won" }] (.ok [])
        (fun _ => .ok (some "w1")) (fun _ => .ok ())).calls =
      [.getCall "status/opportunity/",
        .postOppStatus { label := some "Won", type := "active" }] ∧
    ({ id := some "o1", label := some "Won" } : Status).type = none ∧
    (buildFieldPayload
      { name := some "X"
        type := some "text"
        required := some false }).required = none ∧
    ({ name := some "X"
       type := some "text"
       required := some false } : CustomField).required = some false := by
  decide

/-- C4, amended: attributes gated by Python truthiness (`description`,
`choices`, `accepts_multiple_values`, `required`, `editable_with_roles`,
`referenced_custom_type_id`) are included in the payload iff they are
present with a truthy value, and then copied unchanged;
`back_reference_is_visible` and `api_create_only` are copied verbatim
(present iff present, even when `False`); the opportunity-status payload
always carries `type`, defaulting to `"active"` when absent. -/
theorem c4_payload_attributes :
    (∀ f : CustomField,
      (buildFieldPayload f).description.isSome = truthyS f.description ∧
      (buildFieldPayload f).choices.isSome = truthyL f.choices ∧
      (buildFieldPayload f).accepts_multiple_values.isSome =
        truthyB f.accepts_multiple_values ∧
      (buildFieldPayload f).required.isSome = truthyB f.required ∧
      (buildFieldPayload f).editable_with_roles.isSome =
        truthyL f.editable_with_roles ∧
      (buildFieldPayload f).referenced_custom_type_id.isSome =
        truthyS f.referenced_custom_type_id ∧
      (buildFieldPayload f).back_reference_is_visible =
        f.back_reference_is_visible ∧
      ((buildFieldPayload f).description = f.description ∨
        (buildFieldPayload f).description = none) ∧
      ((buildFieldPayload f).choices = f.choices ∨
        (buildFieldPayload f).choices = none) ∧
      ((buildFieldPayload f).required = f.required ∨
        (buildFieldPayload f).required = none)) ∧
    (∀ t : ActivityType,
      (buildTypePayload t).description.isSome = truthyS t.description ∧
      (buildTypePayload t).editable_with_roles.isSome =
        truthyL t.editable_with_roles ∧
      (buildTypePayload t).api_create_only = t.api_create_only ∧
      ((buildTypePayload t).description = t.description ∨
        (buildTypePayload t).description = none)) ∧
    (∀ s : Status,
      (buildOppStatusPayload s).label = s.label ∧
      (buildOppStatusPayload s).type = s.type.getD "active") := by
  refine ⟨?_, ?_, ?_⟩
  · intro f
    unfold buildFieldPayload
    refine ⟨?_, ?_, ?_, ?_, ?_, ?_, rfl, ?_, ?_, ?_⟩
    · by_cases h : truthyS f.description
      · simp [h, truthyS_isSome h]
      · simp only [Bool.not_eq_true] at h
        simp [h]
    · by_cases h : truthyL f.choices
      · simp [h, truthyL_isSome h]
      · simp only [Bool.not_eq_true] at h
        simp [h]
    · by_cases h : truthyB f.accepts_multiple_values
      · simp [h, truthyB_isSome h]
      · simp only [Bool.not_eq_true] at h
        simp [h]
    · by_cases h : truthyB f.required
      · simp [h, truthyB_isSome h]
      · simp only [Bool.not_eq_true] at h
        simp [h]
    · by_cases h : truthyL f.editable_with_roles
      · simp [h, truthyL_isSome h]
      · simp only [Bool.not_eq_true] at h
        simp [h]
    · by_cases h : truthyS f.referenced_custom_type_id
      · simp [h, truthyS_isSome h]
      · simp only [Bool.not_eq_true] at h
        simp [h]
    · by_cases h : truthyS f.description
      · simp [h]
      · simp only [Bool.not_eq_true] at h
        simp [h]
    · by_cases h : truthyL f.choices
      · simp [h]
      · simp only [Bool.not_eq_true] at h
        simp [h]
    · by_cases h : truthyB f.required
      · simp [h]
      · simp only [Bool.not_eq_true] at h
        simp [h]
  · intro t
    unfold buildTypePayload
    refine ⟨?_, ?_, rfl, ?_⟩
    · by_cases h : truthyS t.description
      · simp [h, truthyS_isSome h]
      · simp only [Bool.not_eq_true] at h
        simp [h]
    · by_cases h : truthyL t.editable_with_roles
      · simp [h, truthyL_isSome h]
      · simp only [Bool.not_eq_true] at h
        simp [h]
    · by_cases h : truthyS t.description
      · simp [h]
      · simp only [Bool.not_eq_true] at h
        simp [h]
  · intro s
    exact ⟨rfl, rfl⟩

/-! ## Claim C8: fetch-failure degradation -/

theorem fetchFold_mem_mono (answer : String → Except String (List CustomField))
    (el : List (String × String))
    (acc : List (String × List CustomField) × List String)
    (x : String × List CustomField) (hx : x ∈ acc.1) :
    x ∈ (el.foldl (fun acc ep =>
      match answer ep.1 with
      | .ok d => (acc.1 ++ [(ep.1, d)], acc.2)
      | .error e =>
        (acc.1, acc.2 ++ ["Error fetching " ++ ep.2 ++ ": " ++ e])) acc).1 := by
  refine foldl_inv (fun a => x ∈ a.1) _ el acc hx ?_
  intro a ep _ ha
  cases hae : answer ep.1 with
  | ok d => simp [hae, ha]
  | error e => simp [hae, ha]

theorem fetchFold_warn_mono
    (answer : String → Except String (List CustomField))
    (el : List (String × String))
    (acc : List (String × List CustomField) × List String)
    (w : String) (hw : w ∈ acc.2) :
    w ∈ (el.foldl (fun acc ep =>
      match answer ep.1 with
      | .ok d => (acc.1 ++ [(ep.1, d)], acc.2)
      | .error e =>
        (acc.1, acc.2 ++ ["Error fetching " ++ ep.2 ++ ": " ++ e])) acc).2 := by
  refine foldl_inv (fun a => w ∈ a.2) _ el acc hw ?_
  intro a ep _ ha
  cases hae : answer ep.1 with
  | ok d => simp [hae, ha]
  | error e => simp [hae, ha]

theorem fetchFold_adds (answer : String → Except String (List CustomField))
    (el : List (String × String))
    (acc : List (String × List CustomField) × List String)
    (ep lab : String) (d : List CustomField) (h : (ep, lab) ∈ el)
    (ha : answer ep = .ok d) :
    (ep, d) ∈ (el.foldl (fun acc ep =>
      match answer ep.1 with
      | .ok d => (acc.1 ++ [(ep.1, d)], acc.2)
      | .error e =>
        (acc.1, acc.2 ++ ["Error fetching " ++ ep.2 ++ ": " ++ e])) acc).1 := by
  induction el generalizing acc with
  | nil => cases h
  | cons e t ih =>
    rcases List.mem_cons.mp h with h' | h'
    · rw [List.foldl_cons]
      apply fetchFold_mem_mono
      rw [← h']
      simp [ha]
    · exact ih _ h'

theorem fetchFold_warns (answer : String → Except String (List CustomField))
    (el : List (String × String))
    (acc : List (String × List CustomField) × List String)
    (ep lab msg : String) (h : (ep, lab) ∈ el)
    (ha : answer ep = .error msg) :
    ("Error fetching " ++ lab ++ ": " ++ msg) ∈ (el.foldl (fun acc ep =>
      match answer ep.1 with
      | .ok d => (acc.1 ++ [(ep.1, d)], acc.2)
      | .error e =>
        (acc.1, acc.2 ++ ["Error fetching " ++ ep.2 ++ ": " ++ e])) acc).2 := by
  induction el generalizing acc with
  | nil => cases h
  | cons e t ih =>
    rcases List.mem_cons.mp h with h' | h'
    · rw [List.foldl_cons]
      apply fetchFold_warn_mono
      rw [← h']
      simp [ha]
    · exact ih _ h'

theorem fetchFold_sources
    (answer : String → Except String (List CustomField))
    (el : List (String × String))
    (acc : List (String × List CustomField) × List String)
    (hacc : ∀ p ∈ acc.1, ∃ lab, (p.1, lab) ∈ el ∧ answer p.1 = .ok p.2) :
    ∀ p ∈ (el.foldl (fun acc ep =>
      match answer ep.1 with
      | .ok d => (acc.1 ++ [(ep.1, d)], acc.2)
      | .error e =>
        (acc.1, acc.2 ++ ["Error fetching " ++ ep.2 ++ ": " ++ e])) acc).1,
      ∃ lab, (p.1, lab) ∈ el ∧ answer p.1 = .ok p.2 := by
  refine foldl_inv
    (fun a => ∀ p ∈ a.1, ∃ lab, (p.1, lab) ∈ el ∧ answer p.1 = .ok p.2)
    _ el acc hacc ?_
  intro a ep hep ha
  cases hae : answer ep.1 with
  | ok d =>
    simp only [hae]
    intro p hp
    rcases List.mem_append.mp hp with hp | hp
    · exact ha p hp
    · simp only [List.mem_singleton] at hp
      subst hp
      exact ⟨ep.2, hep, hae⟩
  | error e =>
    simp only [hae]
    exact ha

/-- C8: a kind's fetch failure does not abort the run.  For
`fetch_custom_fields`: a succeeding endpoint's collection always reaches the
result dict even when others fail, a failing endpoint's key is absent from
the dict (empty-set semantics for that kind only) and its failure is
reported.  For `create_custom_activity_types`: a failed existing-types fetch
yields exactly the behaviour of an empty dev collection, plus a visible
warning.  For `sync_lead_statuses`: a failed dev fetch yields the empty
ledger, no create/delete call, and a visible warning. -/
theorem c8_fetch_failure_degrades :
    (∀ (answer : String → Except String (List CustomField)) (ep lab : String),
      (ep, lab) ∈ fieldEndpoints →
      (∀ d, answer ep = .ok d → (ep, d) ∈ (fetchCustomFields answer).1) ∧
      (∀ msg, answer ep = .error msg →
        (∀ d, (ep, d) ∉ (fetchCustomFields answer).1) ∧
        ("Error fetching " ++ lab ++ ": " ++ msg) ∈
          (fetchCustomFields answer).2)) ∧
    (∀ (src : List ActivityType) (m : String)
        (post : Nat → Except String (Option String)),
      (createCustomActivityTypes src (.error m) post).created =
        (createCustomActivityTypes src (.ok []) post).created ∧
      (createCustomActivityTypes src (.error m) post).failed =
        (createCustomActivityTypes src (.ok []) post).failed ∧
      (createCustomActivityTypes src (.error m) post).skipped =
        (createCustomActivityTypes src (.ok []) post).skipped ∧
      (createCustomActivityTypes src (.error m) post).mapping =
        (createCustomActivityTypes src (.ok []) post).mapping ∧
      (createCustomActivityTypes src (.error m) post).calls =
        (createCustomActivityTypes src (.ok []) post).calls ∧
      (src ≠ [] → (createCustomActivityTypes src (.error m) post).warnings =
        ["Error fetching existing activity types: " ++ m])) ∧
    (∀ (prod : List Status) (m : String)
        (post : Nat → Except String (Option String))
        (del : Nat → Except String Unit), prod ≠ [] →
      (syncLeadStatuses prod (.error m) post del).created = [] ∧
      (syncLeadStatuses prod (.error m) post del).removed = [] ∧
      (syncLeadStatuses prod (.error m) post del).failed = [] ∧
      (∀ c ∈ (syncLeadStatuses prod (.error m) post del).calls,
        c.isMutation = false) ∧
      (syncLeadStatuses prod (.error m) post del).warnings =
        ["Error fetching existing lead statuses: " ++ m]) := by
  refine ⟨?_, ?_, ?_⟩
  · intro answer ep lab hep
    constructor
    · intro d hd
      exact fetchFold_adds answer fieldEndpoints ([], []) ep lab d hep hd
    · intro msg hm
      constructor
      · intro d hd
        rcases fetchFold_sources answer fieldEndpoints ([], []) (by simp)
          (ep, d) hd with ⟨lab', _, hok⟩
        rw [hm] at hok
        cases hok
      · exact fetchFold_warns answer fieldEndpoints ([], []) ep lab msg hep hm
  · intro src m post
    by_cases h : src.isEmpty
    · refine ⟨?_, ?_, ?_, ?_, ?_, ?_⟩ <;>
        simp [createCustomActivityTypes, h, List.isEmpty_iff.mp h]
    · refine ⟨?_, ?_, ?_, ?_, ?_, ?_⟩ <;>
        simp [createCustomActivityTypes, h]
  · intro prod m post del hne
    unfold syncLeadStatuses syncStatusesCore
    rw [if_neg (by simpa using hne)]
    refine ⟨rfl, rfl, rfl, ?_, rfl⟩
    intro c hc
    simp only [List.mem_singleton] at hc
    subst hc
    rfl

/-- C8 witness: one failing endpoint (`contact`) is absent from the dict and
reported, while a succeeding one (`lead`) is present. -/
theorem c8_witness :
    ("contact", "Contact Custom Fields") ∈ fieldEndpoints ∧
    (∀ d, ("contact", d) ∉ (fetchCustomFields (fun ep =>
      if ep = "contact" then .error "boom"
      else .ok [])).1) ∧
    ("Error fetching Contact Custom Fields: boom") ∈
      (fetchCustomFields (fun ep =>
        if ep = "contact" then .error "boom" else .ok [])).2 :=
  ⟨by decide,
    ((c8_fetch_failure_degrades.1 (fun ep =>
        if ep = "contact" then .error "boom" else .ok [])
      "contact" "Contact Custom Fields" (by decide)).2 "boom" rfl).1,
    ((c8_fetch_failure_degrades.1 (fun ep =>
        if ep = "contact" then .error "boom" else .ok [])
      "contact" "Contact Custom Fields" (by decide)).2 "boom" rfl).2⟩

/-! ## Claim C1: reference integrity -/

/-- Every key of the reference map built by the activity-type pass is the
production id of a type that was `Created` or `Skipped` (already present)
in that pass. -/
theorem typeStep_mapping_origin (existing : List ActivityType)
    (post : Nat → Except String (Option String)) (acc : TypeAcc)
    (t : ActivityType)
    (h : ∀ pid, hasKey acc.mapping pid = true →
      pid ∈ acc.created.map (fun e => e.prod_id) ∨
      pid ∈ acc.skipped.map (fun e => e.id)) :
    ∀ pid, hasKey (typeStep existing post acc t).mapping pid = true →
      pid ∈ (typeStep existing post acc t).created.map (fun e => e.prod_id) ∨
      pid ∈ (typeStep existing post acc t).skipped.map (fun e => e.id) := by
  unfold typeStep
  dsimp only
  split
  · split
    · intro pid hk
      rw [hasKey_upsert, Bool.or_eq_true] at hk
      rcases hk with hk | hk
      · rcases h pid hk with h' | h'
        · exact Or.inl h'
        · right
          simp only [List.map_append, List.mem_append]
          exact Or.inl h'
      · right
        simp only [decide_eq_true_eq] at hk
        subst hk
        simp
    · intro pid hk
      rcases h pid hk with h' | h'
      · exact Or.inl h'
      · right
        simp only [List.map_append, List.mem_append]
        exact Or.inl h'
  · split
    · intro pid hk
      rw [hasKey_upsert, Bool.or_eq_true] at hk
      rcases hk with hk | hk
      · rcases h pid hk with h' | h'
        · left
          simp only [List.map_append, List.mem_append]
          exact Or.inl h'
        · exact Or.inr h'
      · left
        simp only [decide_eq_true_eq] at hk
        subst hk
        simp
    · intro pid hk
      rcases h pid hk with h' | h'
      · exact Or.inl h'
      · exact Or.inr h'

theorem createCustomActivityTypes_mapping_origin (src : List ActivityType)
    (fetch : Except String (List ActivityType))
    (post : Nat → Except String (Option String)) :
    ∀ pid, hasKey ((createCustomActivityTypes src fetch
        post).mapping.getD []) pid = true →
      pid ∈ (createCustomActivityTypes src fetch post).created.map
        (fun e => e.prod_id) ∨
      pid ∈ (createCustomActivityTypes src fetch post).skipped.map
        (fun e => e.id) := by
  unfold createCustomActivityTypes
  split
  · intro pid hk
    simp [hasKey] at hk
  · dsimp only
    refine foldl_inv
      (fun a : TypeAcc => ∀ pid, hasKey a.mapping pid = true →
        pid ∈ a.created.map (fun e => e.prod_id) ∨
        pid ∈ a.skipped.map (fun e => e.id))
      _ src { calls := [.getCall "custom_activity/"] }
      (fun pid hk => by simp [hasKey] at hk) ?_
    intro a t _ ha
    exact typeStep_mapping_origin _ post a t ha

/-- Every activity-field create call carries a `custom_activity_type_id`
that is a value stored in the reference map (never a verbatim source id:
the payload field is the map's entry at some key). -/
theorem fieldStep_activity_payload (ft : String)
    (m : List (String × Option String)) (g : Nat → Bool)
    (post : Nat → Except String (Option String)) (acc : FieldAcc)
    (f : CustomField)
    (h : ∀ p, ApiCall.postField "activity" p ∈ acc.calls →
      ∀ v, p.custom_activity_type_id = some v →
      ∃ pid, hasKey m pid = true ∧ lookupA m pid = some v) :
    ∀ p, ApiCall.postField "activity" p ∈
        (fieldStep ft m g post acc f).calls →
      ∀ v, p.custom_activity_type_id = some v →
      ∃ pid, hasKey m pid = true ∧ lookupA m pid = some v := by
  have hgone : ∀ p, ApiCall.postField "activity" p ∈
      acc.calls ++ [ApiCall.getCall ("custom_field/" ++ ft ++ "/")] →
      ∀ v, p.custom_activity_type_id = some v →
      ∃ pid, hasKey m pid = true ∧ lookupA m pid = some v := by
    intro p hp
    rcases List.mem_append.mp hp with hp | hp
    · exact h p hp
    · simp at hp
  unfold fieldStep
  dsimp only
  split
  · exact hgone
  · split
    · exact hgone
    · rename_i routed p' hroute
      have hp' : ∀ v, ft = "activity" →
          p'.custom_activity_type_id = some v →
          ∃ pid, hasKey m pid = true ∧ lookupA m pid = some v := by
        intro v hft hv
        rw [hft, if_pos rfl] at hroute
        by_cases ht : truthyS f.custom_activity_type_id
        · rw [ht] at hroute
          simp only [Bool.not_true, Bool.false_eq_true, if_false] at hroute
          by_cases hk : (!m.isEmpty &&
              hasKey m (f.custom_activity_type_id.getD "")) = true
          · rw [if_pos hk] at hroute
            rw [Bool.and_eq_true] at hk
            refine ⟨f.custom_activity_type_id.getD "", hk.2, ?_⟩
            have heq := Except.ok.inj hroute
            have hcid : p'.custom_activity_type_id =
                lookupA m (f.custom_activity_type_id.getD "") := by
              rw [← heq]
            rw [← hcid]
            exact hv
          · rw [if_neg hk] at hroute
            simp at hroute
        · have hnt : truthyS f.custom_activity_type_id = false := by
            simpa using ht
          rw [hnt] at hroute
          simp only [Bool.not_false, if_true] at hroute
          simp at hroute
      split
      · intro p hp v hv
        rcases List.mem_append.mp hp with hp | hp
        · exact hgone p hp v hv
        · simp only [List.mem_singleton] at hp
          have hft : ft = "activity" := by
            cases hp
            rfl
          have hpp : p = p' := by
            cases hp
            rfl
          subst hpp
          exact hp' v hft hv
      · intro p hp v hv
        rcases List.mem_append.mp hp with hp | hp
        · exact hgone p hp v hv
        · simp only [List.mem_singleton] at hp
          have hft : ft = "activity" := by
            cases hp
            rfl
          have hpp : p = p' := by
            cases hp
            rfl
          subst hpp
          exact hp' v hft hv

/-- C1: reference integrity across the composed run.  Every activity-field
create call whose payload carries a (present, non-null) activity type id
carries a value of the reference map at some key `pid`, and `pid` is the
production id of an activity type that was `Created` or already present
(`Skipped`, hence mapped) earlier in the same run.  The source id is thus
translated through the map, never copied verbatim into the payload. -/
theorem c1_reference_integrity (prodTypes : List ActivityType)
    (fetchTypes : Except String (List ActivityType))
    (postT : Nat → Except String (Option String))
    (allFields : List (String × List CustomField))
    (devFields : List (String × List CustomField))
    (getOk : Nat → Bool) (postF : Nat → Except String (Option String)) :
    ∀ p, ApiCall.postField "activity" p ∈
        (runTypesThenFields prodTypes fetchTypes postT allFields devFields
          getOk postF).2.calls →
      ∀ v, p.custom_activity_type_id = some v →
      ∃ pid,
        hasKey ((runTypesThenFields prodTypes fetchTypes postT allFields
          devFields getOk postF).1.mapping.getD []) pid = true ∧
        lookupA ((runTypesThenFields prodTypes fetchTypes postT allFields
          devFields getOk postF).1.mapping.getD []) pid = some v ∧
        (pid ∈ (runTypesThenFields prodTypes fetchTypes postT allFields
            devFields getOk postF).1.created.map (fun e => e.prod_id) ∨
         pid ∈ (runTypesThenFields prodTypes fetchTypes postT allFields
            devFields getOk postF).1.skipped.map (fun e => e.id)) := by
  unfold runTypesThenFields
  dsimp only
  intro p hp v hv
  have hmain : ∀ q, ApiCall.postField "activity" q ∈
      (createCustomFields allFields
        ((createCustomActivityTypes prodTypes fetchTypes postT).mapping.getD
          []) devFields getOk postF).calls →
      ∀ w, q.custom_activity_type_id = some w →
      ∃ pid, hasKey ((createCustomActivityTypes prodTypes fetchTypes
          postT).mapping.getD []) pid = true ∧
        lookupA ((createCustomActivityTypes prodTypes fetchTypes
          postT).mapping.getD []) pid = some w := by
    unfold createCustomFields
    refine foldl_inv
      (fun a : FieldAcc => ∀ q, ApiCall.postField "activity" q ∈ a.calls →
        ∀ w, q.custom_activity_type_id = some w →
        ∃ pid, hasKey ((createCustomActivityTypes prodTypes fetchTypes
            postT).mapping.getD []) pid = true ∧
          lookupA ((createCustomActivityTypes prodTypes fetchTypes
            postT).mapping.getD []) pid = some w)
      _ allFields { dev := devFields } (by simp) ?_
    intro a tf _ ha
    by_cases he : tf.2.isEmpty
    · simpa [he] using ha
    · simp only [he, Bool.false_eq_true, if_false]
      exact foldl_inv _ (fieldStep tf.1 _ getOk postF) tf.2 a ha
        (fun s x _ hs => fieldStep_activity_payload tf.1 _ getOk postF s x hs)
  rcases hmain p hp v hv with ⟨pid, hk, hl⟩
  exact ⟨pid, hk, hl,
    createCustomActivityTypes_mapping_origin prodTypes fetchTypes postT
      pid hk⟩

/-- C1 witness: Scenario B — the field payload carries the freshly created
dev id `at_9`, mapped from production id `at_1`. -/
theorem c1_witness :
    ApiCall.postField "activity"
      { (buildFieldPayload { id := some "f1", name := some "CallNotes", type := some "text", custom_activity_type_id := some "at_1" }) with
        custom_activity_type_id := (some (some "at_9")) } ∈
      (runTypesThenFields [{ id := some "at_1", name := some "Call" }]
        (.ok []) (fun _ => .ok (some "at_9"))
        [("activity", [{ id := some "f1", name := some "CallNotes", type := some "text", custom_activity_type_id := some "at_1" }])]
        [("activity", [])] (fun _ => true)
        (fun _ => .ok (some "f9"))).2.calls ∧
    ∃ pid,
      hasKey ((runTypesThenFields [{ id := some "at_1", name := some "Call" }]
        (.ok []) (fun _ => .ok (some "at_9"))
        [("activity", [{ id := some "f1", name := some "CallNotes", type := some "text", custom_activity_type_id := some "at_1" }])]
        [("activity", [])] (fun _ => true)
        (fun _ => .ok (some "f9"))).1.mapping.getD []) pid = true ∧
      lookupA ((runTypesThenFields [{ id := some "at_1", name := some "Call" }]
        (.ok []) (fun _ => .ok (some "at_9"))
        [("activity", [{ id := some "f1", name := some "CallNotes", type := some "text", custom_activity_type_id := some "at_1" }])]
        [("activity", [])] (fun _ => true)
        (fun _ => .ok (some "f9"))).1.mapping.getD []) pid =
        some (some "at_9") ∧
      (pid ∈ (runTypesThenFields [{ id := some "at_1", name := some "Call" }]
          (.ok []) (fun _ => .ok (some "at_9"))
          [("activity", [{ id := some "f1", name := some "CallNotes", type := some "text", custom_activity_type_id := some "at_1" }])]
          [("activity", [])] (fun _ => true)
          (fun _ => .ok (some "f9"))).1.created.map (fun e => e.prod_id) ∨
       pid ∈ (runTypesThenFields [{ id := some "at_1", name := some "Call" }]
          (.ok []) (fun _ => .ok (some "at_9"))
          [("activity", [{ id := some "f1", name := some "CallNotes", type := some "text", custom_activity_type_id := some "at_1" }])]
          [("activity", [])] (fun _ => true)
          (fun _ => .ok (some "f9"))).1.skipped.map (fun e => e.id)) :=
  ⟨by decide,
    c1_reference_integrity [{ id := some "at_1", name := some "Call" }]
      (.ok []) (fun _ => .ok (some "at_9"))
      [("activity", [{ id := some "f1", name := some "CallNotes", type := some "text", custom_activity_type_id := some "at_1" }])]
      [("activity", [])] (fun _ => true) (fun _ => .ok (some "f9"))
      { (buildFieldPayload { id := some "f1", name := some "CallNotes", type := some "text", custom_activity_type_id := some "at_1" }) with
        custom_activity_type_id := (some (some "at_9")) }
      (by decide) (some "at_9") rfl⟩

/-! ## Claim C2: idempotence machinery -/

theorem findMapUpsert {κ ν : Type} [DecidableEq κ] (l : List (κ × ν))
    (k k' : κ) (v : ν) (h : k' ≠ k) :
    (l.map (fun p => if p.1 = k then (k, v) else p)).find?
      (fun p => decide (p.1 = k')) = l.find? (fun p => decide (p.1 = k')) := by
  induction l with
  | nil => rfl
  | cons p t ih =>
    rw [List.map_cons]
    by_cases hp : p.1 = k
    · rw [if_pos hp]
      rw [List.find?_cons_of_neg _ (by
          simp only [decide_eq_true_eq]
          exact fun he => h he.symm),
        List.find?_cons_of_neg _ (by
          simp only [decide_eq_true_eq, hp]
          exact fun he => h he.symm)]
      exact ih
    · rw [if_neg hp]
      by_cases hq : p.1 = k'
      · rw [List.find?_cons_of_pos _ (by simp [hq]),
          List.find?_cons_of_pos _ (by simp [hq])]
      · rw [List.find?_cons_of_neg _ (by simp [hq]),
          List.find?_cons_of_neg _ (by simp [hq])]
        exact ih

theorem lookupA_upsert_ne {κ ν : Type} [DecidableEq κ] (l : List (κ × ν))
    (k k' : κ) (v : ν) (h : k' ≠ k) :
    lookupA (upsert l k v) k' = lookupA l k' := by
  unfold upsert
  split
  · unfold lookupA
    rw [findMapUpsert l k k' v h]
  · unfold lookupA
    rw [List.find?_append]
    have h1 : [(k, v)].find? (fun p => decide (p.1 = k')) = none := by
      simp only [List.find?]
      rw [decide_eq_false (fun he => h he.symm)]
    rw [h1]
    cases l.find? (fun p => decide (p.1 = k')) <;> rfl

/-- The set of fields stored on the dev server only grows during
`create_custom_fields`. -/
theorem fieldStep_dev_mono (ft : String) (m : List (String × Option String))
    (g : Nat → Bool) (post : Nat → Except String (Option String))
    (acc : FieldAcc) (f : CustomField) (ft' : String) (e : CustomField)
    (he : e ∈ (lookupA acc.dev ft').getD []) :
    e ∈ (lookupA (fieldStep ft m g post acc f).dev ft').getD [] := by
  unfold fieldStep
  dsimp only
  split
  · exact he
  · split
    · exact he
    · split
      · by_cases hft : ft' = ft
        · subst hft
          rw [lookupA_upsert_self]
          simp only [Option.getD_some]
          exact List.mem_append.mpr (Or.inl he)
        · rw [lookupA_upsert_ne _ _ _ _ hft]
          exact he
      · exact he

theorem typeStep_created_mono (existing : List ActivityType)
    (post : Nat → Except String (Option String)) (acc : TypeAcc)
    (t : ActivityType) (e : CreatedTypeEntry) (he : e ∈ acc.created) :
    e ∈ (typeStep existing post acc t).created := by
  unfold typeStep
  dsimp only
  split
  · split
    · exact he
    · exact he
  · split
    · exact List.mem_append.mpr (Or.inl he)
    · exact he

theorem typeStep_mapping_mono (existing : List ActivityType)
    (post : Nat → Except String (Option String)) (acc : TypeAcc)
    (t : ActivityType) (k : String) (hk : hasKey acc.mapping k = true) :
    hasKey (typeStep existing post acc t).mapping k = true := by
  unfold typeStep
  dsimp only
  split
  · split
    · rw [hasKey_upsert, hk]
      rfl
    · exact hk
  · split
    · rw [hasKey_upsert, hk]
      rfl
    · exact hk

/-- After a first run with every create succeeding, each source activity
type's name is either already on dev or carried by a `Created` entry. -/
theorem typesFold_covers (existing : List ActivityType)
    (post : Nat → Except String (Option String)) (src : List ActivityType)
    (acc : TypeAcc) (hp : ∀ n, ∃ i, post n = Except.ok i) :
    ∀ t ∈ src,
      existing.any (fun e =>
        decide (e.name = some (t.name.getD "Unknown"))) = true ∨
      ∃ e ∈ (src.foldl (typeStep existing post) acc).created,
        e.name = t.name.getD "Unknown" := by
  induction src generalizing acc with
  | nil => simp
  | cons t ts ih =>
    intro x hx
    rcases List.mem_cons.mp hx with hx' | hx'
    · subst hx'
      by_cases hex : existing.any (fun e =>
          decide (e.name = some (x.name.getD "Unknown"))) = true
      · exact Or.inl hex
      · right
        rw [List.foldl_cons]
        have hstep : ∃ e ∈ (typeStep existing post acc x).created,
            e.name = x.name.getD "Unknown" := by
          unfold typeStep
          dsimp only
          rw [if_neg (by simpa using hex)]
          rcases hp acc.postCount with ⟨i, hi⟩
          rw [hi]
          exact ⟨⟨x.name.getD "Unknown", i, x.id.getD "Unknown"⟩,
            List.mem_append.mpr (Or.inr (by simp)), rfl⟩
        rcases hstep with ⟨e, he, hen⟩
        refine ⟨e, ?_, hen⟩
        exact foldl_inv (fun a : TypeAcc => e ∈ a.created) _ ts _ he
          (fun a y _ ha => typeStep_created_mono existing post a y e ha)
    · rw [List.foldl_cons]
      exact ih (typeStep existing post acc t) x hx'

/-- When every source type's name already exists on dev, the whole pass is
skips: nothing is created and nothing fails. -/
theorem typesFold_all_skip (existing : List ActivityType)
    (post : Nat → Except String (Option String)) (src : List ActivityType)
    (acc : TypeAcc)
    (hall : ∀ t ∈ src, existing.any (fun e =>
      decide (e.name = some (t.name.getD "Unknown"))) = true) :
    (src.foldl (typeStep existing post) acc).created = acc.created ∧
    (src.foldl (typeStep existing post) acc).failed = acc.failed ∧
    (src.foldl (typeStep existing post) acc).postCount = acc.postCount := by
  refine foldl_inv (fun a : TypeAcc => a.created = acc.created ∧
    a.failed = acc.failed ∧ a.postCount = acc.postCount) _ src acc
    ⟨rfl, rfl, rfl⟩ ?_
  intro a t ht ha
  unfold typeStep
  dsimp only
  rw [if_pos (hall t ht)]
  split
  · exact ha
  · exact ha

/-- Every key of the pass mapping is a source type's production id. -/
theorem typesFold_keys_sub (existing : List ActivityType)
    (post : Nat → Except String (Option String)) (src : List ActivityType)
    (acc : TypeAcc)
    (hacc : ∀ k, hasKey acc.mapping k = true →
      k ∈ src.map (fun t => t.id.getD "Unknown")) :
    ∀ k, hasKey (src.foldl (typeStep existing post) acc).mapping k = true →
      k ∈ src.map (fun t => t.id.getD "Unknown") := by
  refine foldl_inv (fun a : TypeAcc => ∀ k, hasKey a.mapping k = true →
    k ∈ src.map (fun t => t.id.getD "Unknown")) _ src acc hacc ?_
  intro a t ht ha k hk
  unfold typeStep at hk
  dsimp only at hk
  split at hk
  · split at hk
    · rw [hasKey_upsert, Bool.or_eq_true] at hk
      rcases hk with hk | hk
      · exact ha k hk
      · simp only [decide_eq_true_eq] at hk
        subst hk
        exact List.mem_map_of_mem _ ht
    · exact ha k hk
  · split at hk
    · rw [hasKey_upsert, Bool.or_eq_true] at hk
      rcases hk with hk | hk
      · exact ha k hk
      · simp only [decide_eq_true_eq] at hk
        subst hk
        exact List.mem_map_of_mem _ ht
    · exact ha k hk

/-- Every source type's production id becomes a mapping key, provided each
type is either skipped (name on dev) or created successfully. -/
theorem typesFold_keys_complete (existing : List ActivityType)
    (post : Nat → Except String (Option String)) (src : List ActivityType)
    (acc : TypeAcc)
    (hcover : (∀ n, ∃ i, post n = Except.ok i) ∨
      (∀ t ∈ src, existing.any (fun e =>
        decide (e.name = some (t.name.getD "Unknown"))) = true)) :
    ∀ t ∈ src, hasKey (src.foldl (typeStep existing post) acc).mapping
      (t.id.getD "Unknown") = true := by
  have main : ∀ (ts : List ActivityType) (acc : TypeAcc),
      (∀ t ∈ ts, (∀ n, ∃ i, post n = Except.ok i) ∨
        existing.any (fun e =>
          decide (e.name = some (t.name.getD "Unknown"))) = true) →
      ∀ t ∈ ts, hasKey (ts.foldl (typeStep existing post) acc).mapping
        (t.id.getD "Unknown") = true := by
    intro ts
    induction ts with
    | nil => simp
    | cons t ts ih =>
      intro acc hc x hx
      rcases List.mem_cons.mp hx with hx' | hx'
      · subst hx'
        rw [List.foldl_cons]
        have hstep : hasKey (typeStep existing post acc x).mapping
            (x.id.getD "Unknown") = true := by
          unfold typeStep
          dsimp only
          by_cases hex : existing.any (fun e =>
              decide (e.name = some (x.name.getD "Unknown"))) = true
          · rw [if_pos hex]
            have hfind : ∃ e, existing.find? (fun e =>
                decide (e.name = some (x.name.getD "Unknown"))) = some e := by
              rcases List.any_eq_true.mp hex with ⟨e, he, hee⟩
              exact Option.isSome_iff_exists.mp
                (List.find?_isSome.mpr ⟨e, he, hee⟩)
            rcases hfind with ⟨e, he⟩
            rw [he]
            rw [hasKey_upsert]
            simp
          · rw [if_neg hex]
            rcases hc x (List.mem_cons_self x ts) with hc' | hc'
            · rcases hc' acc.postCount with ⟨i, hi⟩
              rw [hi]
              rw [hasKey_upsert]
              simp
            · exact absurd hc' hex
        exact foldl_inv (fun a : TypeAcc =>
          hasKey a.mapping (x.id.getD "Unknown") = true) _ ts _ hstep
          (fun a y _ ha => typeStep_mapping_mono existing post a y _ ha)
      · rw [List.foldl_cons]
        exact ih (typeStep existing post acc t)
          (fun y hy => hc y (List.mem_cons_of_mem t hy)) x hx'
  refine main src acc ?_
  intro t _
  rcases hcover with h | h
  · exact Or.inl h
  · exact Or.inr (h t (by assumption))

/-- Created entries carry source production ids. -/
theorem typesFold_created_src (existing : List ActivityType)
    (post : Nat → Except String (Option String)) (src : List ActivityType)
    (acc : TypeAcc)
    (hacc : ∀ e ∈ acc.created, e.prod_id ∈ src.map (fun t => t.id.getD "Unknown")) :
    ∀ e ∈ (src.foldl (typeStep existing post) acc).created,
      e.prod_id ∈ src.map (fun t => t.id.getD "Unknown") := by
  refine foldl_inv (fun a : TypeAcc => ∀ e ∈ a.created,
    e.prod_id ∈ src.map (fun t => t.id.getD "Unknown")) _ src acc hacc ?_
  intro a t ht ha e he
  unfold typeStep at he
  dsimp only at he
  split at he
  · split at he
    · exact ha e he
    · exact ha e he
  · split at he
    · rcases List.mem_append.mp he with he | he
      · exact ha e he
      · simp only [List.mem_singleton] at he
        subst he
        exact List.mem_map_of_mem _ ht
    · exact ha e he

/-- Skipped entries carry source production ids. -/
theorem typesFold_skipped_src (existing : List ActivityType)
    (post : Nat → Except String (Option String)) (src : List ActivityType)
    (acc : TypeAcc)
    (hacc : ∀ e ∈ acc.skipped, e.id ∈ src.map (fun t => t.id.getD "Unknown")) :
    ∀ e ∈ (src.foldl (typeStep existing post) acc).skipped,
      e.id ∈ src.map (fun t => t.id.getD "Unknown") := by
  refine foldl_inv (fun a : TypeAcc => ∀ e ∈ a.skipped,
    e.id ∈ src.map (fun t => t.id.getD "Unknown")) _ src acc hacc ?_
  intro a t ht ha e he
  unfold typeStep at he
  dsimp only at he
  split at he
  · split at he
    · rcases List.mem_append.mp he with he | he
      · exact ha e he
      · simp only [List.mem_singleton] at he
        subst he
        exact List.mem_map_of_mem _ ht
    · rcases List.mem_append.mp he with he | he
      · exact ha e he
      · simp only [List.mem_singleton] at he
        subst he
        exact List.mem_map_of_mem _ ht
  · split at he
    · exact ha e he
    · exact ha e he

theorem hasKey_isEmpty {κ ν : Type} [DecidableEq κ] {m : List (κ × ν)}
    (h : m.isEmpty = true) (k : κ) : hasKey m k = false := by
  rw [List.isEmpty_iff.mp h]
  rfl

/-- After a first run with every create succeeding, each source type's name
is on the dev server. -/
theorem typesRun_covers (src dev : List ActivityType)
    (post : Nat → Except String (Option String))
    (hp : ∀ n, ∃ i, post n = Except.ok i) :
    ∀ t ∈ src,
      (typeDevAfter dev (createCustomActivityTypes src (.ok dev) post)).any
        (fun e => decide (e.name = some (t.name.getD "Unknown"))) = true := by
  intro t ht
  unfold createCustomActivityTypes
  rw [if_neg (by
    intro hc
    rw [List.isEmpty_iff.mp hc] at ht
    cases ht)]
  dsimp only
  unfold typeDevAfter
  dsimp only
  rw [List.any_append, Bool.or_eq_true]
  rcases typesFold_covers dev post src { calls := [.getCall "custom_activity/"] }
      hp t ht with h | ⟨e, he, hen⟩
  · exact Or.inl h
  · right
    rw [List.any_eq_true]
    refine ⟨{ id := e.id, name := some e.name }, List.mem_map_of_mem _ he, ?_⟩
    simp [hen]

/-- The mapping keys of a pass are exactly the source production ids when
every create succeeds. -/
theorem typesRun_keys_iff (src : List ActivityType)
    (fetch : Except String (List ActivityType))
    (post : Nat → Except String (Option String))
    (hp : ∀ n, ∃ i, post n = Except.ok i) (k : String) :
    hasKey ((createCustomActivityTypes src fetch post).mapping.getD [])
      k = true ↔ k ∈ src.map (fun t => t.id.getD "Unknown") := by
  unfold createCustomActivityTypes
  by_cases hsrc : src.isEmpty
  · rw [if_pos hsrc]
    simp [hasKey, List.isEmpty_iff.mp hsrc]
  · rw [if_neg hsrc]
    dsimp only
    constructor
    · exact typesFold_keys_sub _ post src _
        (fun k hk => by simp [hasKey] at hk) k
    · intro hk
      rcases List.mem_map.mp hk with ⟨t, ht, hte⟩
      rw [← hte]
      exact typesFold_keys_complete _ post src _ (Or.inl hp) t ht

/-- Second run of the activity-type pass: every name already on dev, so
nothing is created, and the mapping keys are again the source ids. -/
theorem typesRun_second (src dev2 : List ActivityType)
    (post2 : Nat → Except String (Option String))
    (hall : ∀ t ∈ src, dev2.any (fun e =>
      decide (e.name = some (t.name.getD "Unknown"))) = true) :
    (createCustomActivityTypes src (.ok dev2) post2).created = [] ∧
    (createCustomActivityTypes src (.ok dev2) post2).failed = [] ∧
    (∀ k, hasKey ((createCustomActivityTypes src (.ok dev2)
        post2).mapping.getD []) k = true ↔
      k ∈ src.map (fun t => t.id.getD "Unknown")) := by
  unfold createCustomActivityTypes
  by_cases hsrc : src.isEmpty
  · rw [if_pos hsrc]
    refine ⟨rfl, rfl, ?_⟩
    simp [hasKey, List.isEmpty_iff.mp hsrc]
  · rw [if_neg hsrc]
    dsimp only
    refine ⟨?_, ?_, ?_⟩
    · simpa using (typesFold_all_skip dev2 post2 src _ hall).1
    · simpa using (typesFold_all_skip dev2 post2 src _ hall).2.1
    · intro k
      constructor
      · exact typesFold_keys_sub _ post2 src _
          (fun k hk => by simp [hasKey] at hk) k
      · intro hk
        rcases List.mem_map.mp hk with ⟨t, ht, hte⟩
        rw [← hte]
        exact typesFold_keys_complete _ post2 src _ (Or.inr hall) t ht

/-- Shape of the activity routing result when it produces a skip. -/
theorem routed_error_shape (ft : String) (m : List (String × Option String))
    (f : CustomField) (fieldName fieldId : String) (sk : SkippedFieldEntry)
    (h : (if ft = "activity" then
        if !truthyS f.custom_activity_type_id then
          Except.error (⟨ft, fieldName, fieldId,
            some "No custom_activity_type_id found"⟩ : SkippedFieldEntry)
        else
          if !m.isEmpty && hasKey m (f.custom_activity_type_id.getD "") then
            Except.ok { (buildFieldPayload f) with custom_activity_type_id :=
              (lookupA m (f.custom_activity_type_id.getD "")) }
          else
            Except.error ⟨ft, fieldName, fieldId,
              some "Could not map custom_activity_type_id"⟩
      else Except.ok (buildFieldPayload f)) = Except.error sk) :
    ft = "activity" ∧ (truthyS f.custom_activity_type_id = false ∨
      hasKey m (f.custom_activity_type_id.getD "") = false) := by
  by_cases hft : ft = "activity"
  · refine ⟨hft, ?_⟩
    rw [if_pos hft] at h
    by_cases ht : truthyS f.custom_activity_type_id
    · rw [ht] at h
      simp only [Bool.not_true, Bool.false_eq_true, if_false] at h
      by_cases hk : (!m.isEmpty &&
          hasKey m (f.custom_activity_type_id.getD "")) = true
      · rw [if_pos hk] at h
        cases h
      · right
        have hk' : (!m.isEmpty &&
            hasKey m (f.custom_activity_type_id.getD "")) = false := by
          rcases Bool.eq_false_or_eq_true (!m.isEmpty &&
            hasKey m (f.custom_activity_type_id.getD "")) with h1 | h1
          · exact absurd h1 hk
          · exact h1
        rcases Bool.and_eq_false_iff.mp hk' with h1 | h1
        · have hm : m.isEmpty = true := by
            rcases Bool.eq_false_or_eq_true m.isEmpty with h2 | h2
            · exact h2
            · rw [h2] at h1
              cases h1
          exact hasKey_isEmpty hm _
        · exact h1
    · exact Or.inl (by simpa using ht)
  · rw [if_neg hft] at h
    cases h

/-- Shape of the activity routing result when it produces a payload. -/
theorem routed_ok_name (ft : String) (m : List (String × Option String))
    (f : CustomField) (fieldName fieldId : String) (p' : FieldPayload)
    (h : (if ft = "activity" then
        if !truthyS f.custom_activity_type_id then
          Except.error (⟨ft, fieldName, fieldId,
            some "No custom_activity_type_id found"⟩ : SkippedFieldEntry)
        else
          if !m.isEmpty && hasKey m (f.custom_activity_type_id.getD "") then
            Except.ok { (buildFieldPayload f) with custom_activity_type_id :=
              (lookupA m (f.custom_activity_type_id.getD "")) }
          else
            Except.error ⟨ft, fieldName, fieldId,
              some "Could not map custom_activity_type_id"⟩
      else Except.ok (buildFieldPayload f)) = Except.ok p') :
    p'.name = f.name.getD "Unknown" := by
  by_cases hft : ft = "activity"
  · rw [if_pos hft] at h
    by_cases ht : truthyS f.custom_activity_type_id
    · rw [ht] at h
      simp only [Bool.not_true, Bool.false_eq_true, if_false] at h
      by_cases hk : (!m.isEmpty &&
          hasKey m (f.custom_activity_type_id.getD "")) = true
      · rw [if_pos hk] at h
        have := Except.ok.inj h
        rw [← this]
        rfl
      · rw [if_neg hk] at h
        cases h
    · have hnt : truthyS f.custom_activity_type_id = false := by
        simpa using ht
      rw [hnt] at h
      simp only [Bool.not_false, if_true] at h
      cases h
  · rw [if_neg hft] at h
    have := Except.ok.inj h
    rw [← this]
    rfl

theorem fieldStep_nameOn_mono (ft : String) (m : List (String × Option String))
    (g : Nat → Bool) (post : Nat → Except String (Option String))
    (acc : FieldAcc) (f : CustomField) (ft' : String) (f' : CustomField)
    (h : nameOn acc.dev ft' f' = true) :
    nameOn (fieldStep ft m g post acc f).dev ft' f' = true := by
  unfold nameOn at h ⊢
  rw [List.any_eq_true] at h ⊢
  rcases h with ⟨e, he, hme⟩
  exact ⟨e, fieldStep_dev_mono ft m g post acc f ft' e he, hme⟩

/-- After processing a field with the fetch succeeding and every create
succeeding, either its name is on the dev server or it is an activity field
that reference-skips. -/
theorem fieldStep_establishes (ft : String)
    (m : List (String × Option String)) (getOk : Nat → Bool)
    (post : Nat → Except String (Option String)) (acc : FieldAcc)
    (f : CustomField) (hg : getOk acc.getCount = true)
    (hp : ∀ n, ∃ i, post n = Except.ok i) :
    nameOn (fieldStep ft m getOk post acc f).dev ft f = true ∨
      (ft = "activity" ∧ (truthyS f.custom_activity_type_id = false ∨
        hasKey m (f.custom_activity_type_id.getD "") = false)) := by
  unfold fieldStep
  dsimp only
  split
  · rename_i hcond
    left
    rw [Bool.and_eq_true] at hcond
    exact hcond.2
  · split
    · rename_i sk hsk
      exact Or.inr (routed_error_shape ft m f _ _ sk hsk)
    · rename_i p' hp'
      left
      split
      · rename_i newId hok
        unfold nameOn
        rw [lookupA_upsert_self]
        simp only [Option.getD_some]
        rw [List.any_append, Bool.or_eq_true]
        right
        rw [List.any_eq_true]
        refine ⟨serverField p' newId, by simp, ?_⟩
        simp [serverField, routed_ok_name ft m f _ _ p' hp']
      · rename_i msg herr
        rcases hp acc.postCount with ⟨i, hi⟩
        exact (Except.noConfusion (hi.symm.trans herr))

theorem fieldsFold_nameOn_mono (ft : String)
    (m : List (String × Option String)) (getOk : Nat → Bool)
    (post : Nat → Except String (Option String)) (fl : List CustomField)
    (acc : FieldAcc) (ft' : String) (f' : CustomField)
    (h : nameOn acc.dev ft' f' = true) :
    nameOn ((fl.foldl (fieldStep ft m getOk post) acc)).dev ft' f' = true :=
  foldl_inv (fun a : FieldAcc => nameOn a.dev ft' f' = true) _ fl acc h
    (fun a x _ ha => fieldStep_nameOn_mono ft m getOk post a x ft' f' ha)

theorem fieldsOuter_nameOn_mono (m : List (String × Option String))
    (getOk : Nat → Bool) (post : Nat → Except String (Option String))
    (tfls : List (String × List CustomField)) (acc : FieldAcc)
    (ft' : String) (f' : CustomField) (h : nameOn acc.dev ft' f' = true) :
    nameOn ((tfls.foldl (fun acc tf => if tf.2.isEmpty then acc
      else tf.2.foldl (fieldStep tf.1 m getOk post) acc) acc)).dev ft' f' =
      true := by
  refine foldl_inv (fun a : FieldAcc => nameOn a.dev ft' f' = true) _ tfls acc
    h ?_
  intro a tf _ ha
  by_cases he : tf.2.isEmpty
  · simpa [he] using ha
  · simp only [he, Bool.false_eq_true, if_false]
    exact fieldsFold_nameOn_mono tf.1 m getOk post tf.2 a ft' f' ha

theorem fieldsFold_covers_inner (ft : String)
    (m : List (String × Option String)) (getOk : Nat → Bool)
    (post : Nat → Except String (Option String))
    (hgAll : ∀ n, getOk n = true) (hp : ∀ n, ∃ i, post n = Except.ok i)
    (fl : List CustomField) (acc : FieldAcc) :
    ∀ f ∈ fl, nameOn ((fl.foldl (fieldStep ft m getOk post) acc)).dev ft f =
        true ∨
      (ft = "activity" ∧ (truthyS f.custom_activity_type_id = false ∨
        hasKey m (f.custom_activity_type_id.getD "") = false)) := by
  induction fl generalizing acc with
  | nil => simp
  | cons f fs ih =>
    intro x hx
    rcases List.mem_cons.mp hx with hx' | hx'
    · subst hx'
      rw [List.foldl_cons]
      rcases fieldStep_establishes ft m getOk post acc x (hgAll _) hp with
        h | h
      · exact Or.inl (fieldsFold_nameOn_mono ft m getOk post fs _ ft x h)
      · exact Or.inr h
    · rw [List.foldl_cons]
      exact ih (fieldStep ft m getOk post acc f) x hx'

/-- After a first full custom-field pass with fetches and creates all
succeeding, every source field either has its name on the final dev server
state or is an activity field that reference-skips (and will do so again
with any mapping of the same key set). -/
theorem createCustomFields_covers
    (allFields : List (String × List CustomField))
    (m : List (String × Option String)) (dev : List (String × List CustomField))
    (getOk : Nat → Bool) (post : Nat → Except String (Option String))
    (hgAll : ∀ n, getOk n = true) (hp : ∀ n, ∃ i, post n = Except.ok i) :
    ∀ tf ∈ allFields, ∀ f ∈ tf.2,
      nameOn (createCustomFields allFields m dev getOk post).dev tf.1 f =
        true ∨
      (tf.1 = "activity" ∧ (truthyS f.custom_activity_type_id = false ∨
        hasKey m (f.custom_activity_type_id.getD "") = false)) := by
  unfold createCustomFields
  suffices h : ∀ (tfls : List (String × List CustomField)) (acc : FieldAcc),
      ∀ tf ∈ tfls, ∀ f ∈ tf.2,
        nameOn ((tfls.foldl (fun acc tf => if tf.2.isEmpty then acc
          else tf.2.foldl (fieldStep tf.1 m getOk post) acc) acc)).dev tf.1
          f = true ∨
        (tf.1 = "activity" ∧ (truthyS f.custom_activity_type_id = false ∨
          hasKey m (f.custom_activity_type_id.getD "") = false)) by
    exact h allFields { dev := dev }
  intro tfls
  induction tfls with
  | nil => simp
  | cons tf rest ih =>
    intro acc tf' htf' f hf
    rcases List.mem_cons.mp htf' with htf'' | htf''
    · subst htf''
      rw [List.foldl_cons]
      by_cases he : tf'.2.isEmpty
      · rw [List.isEmpty_iff.mp he] at hf
        cases hf
      · simp only [he, Bool.false_eq_true, if_false]
        rcases fieldsFold_covers_inner tf'.1 m getOk post hgAll hp tf'.2 acc
          f hf with h | h
        · exact Or.inl (fieldsOuter_nameOn_mono m getOk post rest _ tf'.1 f h)
        · exact Or.inr h
    · rw [List.foldl_cons]
      exact ih (if tf.2.isEmpty then acc
        else tf.2.foldl (fieldStep tf.1 m getOk post) acc) tf' htf'' f hf

/-- One step of the second run: a field whose name is already on dev, or
which reference-skips, changes no outcome list and no server state. -/
theorem fieldStep_second (ft : String) (m : List (String × Option String))
    (getOk : Nat → Bool) (post : Nat → Except String (Option String))
    (acc : FieldAcc) (f : CustomField) (hg : getOk acc.getCount = true)
    (hq : nameOn acc.dev ft f = true ∨
      (ft = "activity" ∧ (truthyS f.custom_activity_type_id = false ∨
        hasKey m (f.custom_activity_type_id.getD "") = false))) :
    (fieldStep ft m getOk post acc f).created = acc.created ∧
    (fieldStep ft m getOk post acc f).failed = acc.failed ∧
    (fieldStep ft m getOk post acc f).dev = acc.dev := by
  unfold fieldStep
  dsimp only
  split
  · exact ⟨rfl, rfl, rfl⟩
  · rename_i hcond
    rcases hq with hq | ⟨hft, hq⟩
    · exact absurd (by
        rw [hg]
        simpa [nameOn] using hq) hcond
    · split
      · exact ⟨rfl, rfl, rfl⟩
      · rename_i p' hp'
        exfalso
        rw [if_pos hft] at hp'
        rcases hq with hq | hq
        · rw [hq] at hp'
          simp only [Bool.not_false, if_true] at hp'
          cases hp'
        · by_cases ht : truthyS f.custom_activity_type_id
          · rw [ht] at hp'
            simp only [Bool.not_true, Bool.false_eq_true, if_false] at hp'
            rw [if_neg (by
              rw [hq]
              simp)] at hp'
            cases hp'
          · have hnt : truthyS f.custom_activity_type_id = false := by
              simpa using ht
            rw [hnt] at hp'
            simp only [Bool.not_false, if_true] at hp'
            cases hp'

/-- Second run of the custom-field pass: nothing is created and nothing
fails. -/
theorem createCustomFields_second
    (allFields : List (String × List CustomField))
    (m2 : List (String × Option String))
    (dev0 : List (String × List CustomField)) (getOk2 : Nat → Bool)
    (post2 : Nat → Except String (Option String))
    (hg2 : ∀ n, getOk2 n = true)
    (hq : ∀ tf ∈ allFields, ∀ f ∈ tf.2, nameOn dev0 tf.1 f = true ∨
      (tf.1 = "activity" ∧ (truthyS f.custom_activity_type_id = false ∨
        hasKey m2 (f.custom_activity_type_id.getD "") = false))) :
    (createCustomFields allFields m2 dev0 getOk2 post2).created = [] ∧
    (createCustomFields allFields m2 dev0 getOk2 post2).failed = [] := by
  unfold createCustomFields
  have h := foldl_inv (fun a : FieldAcc => a.created = [] ∧ a.failed = [] ∧
    a.dev = dev0)
    (fun acc tf => if tf.2.isEmpty then acc
      else tf.2.foldl (fieldStep tf.1 m2 getOk2 post2) acc)
    allFields { dev := dev0 } ⟨rfl, rfl, rfl⟩ ?_
  · exact ⟨h.1, h.2.1⟩
  · intro a tf htf ha
    by_cases he : tf.2.isEmpty
    · simpa [he] using ha
    · simp only [he, Bool.false_eq_true, if_false]
      refine foldl_inv (fun a : FieldAcc => a.created = [] ∧ a.failed = [] ∧
        a.dev = dev0) (fieldStep tf.1 m2 getOk2 post2) tf.2 a ha ?_
      intro a' f hf ha'
      have hstep := fieldStep_second tf.1 m2 getOk2 post2 a' f (hg2 _) (by
        rw [ha'.2.2]
        exact hq tf htf f hf)
      exact ⟨hstep.1.trans ha'.1, hstep.2.1.trans ha'.2.1,
        hstep.2.2.trans ha'.2.2⟩

theorem statusCreateStep_created_mono (mkCall : Status → ApiCall)
    (mkEntry : Status → Option String → CreatedStatusEntry)
    (dict : List (Option String × Status))
    (post : Nat → Except String (Option String)) (acc : StatusAcc)
    (st : Status) (e : CreatedStatusEntry) (he : e ∈ acc.created) :
    e ∈ (statusCreateStep mkCall mkEntry dict post acc st).created := by
  unfold statusCreateStep
  split
  · exact he
  · split
    · exact List.mem_append.mpr (Or.inl he)
    · exact he

theorem statusRemoveStep_removed_mono (path : String) (prod : List Status)
    (del : Nat → Except String Unit) (acc : StatusAcc)
    (kv : Option String × Status) (e : RemovedStatusEntry)
    (he : e ∈ acc.removed) :
    e ∈ (statusRemoveStep path prod del acc kv).removed := by
  unfold statusRemoveStep
  split
  · exact he
  · split
    · exact List.mem_append.mpr (Or.inl he)
    · exact he

/-- Created entries of a status sync carry production labels and server ids
fresh with respect to the fetched dev statuses. -/
theorem statusCreateFold_created_facts (mkCall : Status → ApiCall)
    (mkEntry : Status → Option String → CreatedStatusEntry)
    (dict : List (Option String × Status))
    (post : Nat → Except String (Option String)) (prod devData : List Status)
    (acc : StatusAcc)
    (hmkE : ∀ s i, (mkEntry s i).label = s.label ∧ (mkEntry s i).id = i)
    (hfresh : ∀ n i, post n = Except.ok i → ∀ s ∈ devData, ¬s.id = i)
    (hacc : ∀ e ∈ acc.created, (∃ p ∈ prod, e.label = p.label) ∧
      ∀ s ∈ devData, ¬s.id = e.id) :
    ∀ e ∈ (prod.foldl (statusCreateStep mkCall mkEntry dict post)
        acc).created,
      (∃ p ∈ prod, e.label = p.label) ∧ ∀ s ∈ devData, ¬s.id = e.id := by
  refine foldl_inv (fun a : StatusAcc => ∀ e ∈ a.created,
    (∃ p ∈ prod, e.label = p.label) ∧ ∀ s ∈ devData, ¬s.id = e.id)
    _ prod acc hacc ?_
  intro a st hst ha e he
  unfold statusCreateStep at he
  split at he
  · exact ha e he
  · split at he
    · rename_i i hi
      rcases List.mem_append.mp he with he | he
      · exact ha e he
      · simp only [List.mem_singleton] at he
        subst he
        refine ⟨⟨st, hst, (hmkE st i).1⟩, ?_⟩
        rw [(hmkE st i).2]
        exact hfresh a.postCount i hi
    · exact ha e he

/-- Removed entries of a status sync carry ids of fetched dev statuses whose
labels are absent from production. -/
theorem statusRemoveFold_removed_facts (path : String)
    (prod devData : List Status) (del : Nat → Except String Unit)
    (dict : List (Option String × Status)) (acc : StatusAcc)
    (hdict : ∀ kv ∈ dict, kv.2 ∈ devData ∧ kv.2.label = kv.1)
    (hacc : ∀ e ∈ acc.removed, ∃ s ∈ devData, e.id = s.id ∧
      s.label = e.label ∧
      prod.any (fun p => decide (p.label = e.label)) = false) :
    ∀ e ∈ (dict.foldl (statusRemoveStep path prod del) acc).removed,
      ∃ s ∈ devData, e.id = s.id ∧ s.label = e.label ∧
        prod.any (fun p => decide (p.label = e.label)) = false := by
  refine foldl_inv (fun a : StatusAcc => ∀ e ∈ a.removed,
    ∃ s ∈ devData, e.id = s.id ∧ s.label = e.label ∧
      prod.any (fun p => decide (p.label = e.label)) = false)
    _ dict acc hacc ?_
  intro a kv hkv ha e he
  unfold statusRemoveStep at he
  split at he
  · exact ha e he
  · rename_i hpr
    split at he
    · rcases List.mem_append.mp he with he | he
      · exact ha e he
      · simp only [List.mem_singleton] at he
        subst he
        refine ⟨kv.2, (hdict kv hkv).1, rfl, (hdict kv hkv).2, ?_⟩
        simpa using hpr
    · exact ha e he

/-- With every create succeeding, each production status missing from the
dev dict obtains a `Created` entry with its label. -/
theorem statusCreateFold_covers (mkCall : Status → ApiCall)
    (mkEntry : Status → Option String → CreatedStatusEntry)
    (dict : List (Option String × Status))
    (post : Nat → Except String (Option String)) (prod : List Status)
    (acc : StatusAcc)
    (hmkE : ∀ s i, (mkEntry s i).label = s.label ∧ (mkEntry s i).id = i)
    (hp : ∀ n, ∃ i, post n = Except.ok i) :
    ∀ p ∈ prod, hasKey dict p.label = false →
      ∃ e ∈ (prod.foldl (statusCreateStep mkCall mkEntry dict post)
        acc).created, e.label = p.label := by
  induction prod generalizing acc with
  | nil => simp
  | cons st sts ih =>
    intro p hp' hk
    rcases List.mem_cons.mp hp' with hp'' | hp''
    · subst hp''
      rw [List.foldl_cons]
      have hstep : ∃ e ∈ (statusCreateStep mkCall mkEntry dict post
          acc p).created, e.label = p.label := by
        unfold statusCreateStep
        rw [if_neg (by simp [hk])]
        rcases hp acc.postCount with ⟨i, hi⟩
        rw [hi]
        exact ⟨mkEntry p i, List.mem_append.mpr (Or.inr (by simp)),
          (hmkE p i).1⟩
      rcases hstep with ⟨e, he, hel⟩
      refine ⟨e, ?_, hel⟩
      exact foldl_inv (fun a : StatusAcc => e ∈ a.created) _ sts _ he
        (fun a y _ ha =>
          statusCreateStep_created_mono mkCall mkEntry dict post a y e ha)
    · rw [List.foldl_cons]
      exact ih (statusCreateStep mkCall mkEntry dict post acc st) p hp'' hk

/-- With every delete succeeding, each dev dict entry whose label is absent
from production obtains a `Removed` entry with its id. -/
theorem statusRemoveFold_covers (path : String) (prod : List Status)
    (del : Nat → Except String Unit)
    (dict : List (Option String × Status)) (acc : StatusAcc)
    (hd : ∀ n, del n = Except.ok ()) :
    ∀ kv ∈ dict, prod.any (fun p => decide (p.label = kv.1)) = false →
      (⟨kv.1, kv.2.id⟩ : RemovedStatusEntry) ∈
        (dict.foldl (statusRemoveStep path prod del) acc).removed := by
  suffices h : ∀ (l : List (Option String × Status)) (acc : StatusAcc),
      ∀ kv ∈ l, prod.any (fun p => decide (p.label = kv.1)) = false →
      (⟨kv.1, kv.2.id⟩ : RemovedStatusEntry) ∈
        (l.foldl (statusRemoveStep path prod del) acc).removed by
    exact h dict acc
  intro l
  induction l with
  | nil => simp
  | cons kv kvs ih =>
    intro acc x hx hpr
    rcases List.mem_cons.mp hx with hx' | hx'
    · subst hx'
      rw [List.foldl_cons]
      have hstep : (⟨x.1, x.2.id⟩ : RemovedStatusEntry) ∈
          (statusRemoveStep path prod del acc x).removed := by
        unfold statusRemoveStep
        rw [if_neg (by simp [hpr])]
        rw [hd acc.deleteCount]
        exact List.mem_append.mpr (Or.inr (by simp))
      exact foldl_inv (fun a : StatusAcc =>
        (⟨x.1, x.2.id⟩ : RemovedStatusEntry) ∈ a.removed) _ kvs _ hstep
        (fun a y _ ha =>
          statusRemoveStep_removed_mono path prod del a y _ ha)
    · rw [List.foldl_cons]
      exact ih (statusRemoveStep path prod del acc kv) x hx' hpr

/-- When every production label is a dev dict key and every dev dict key is
a production label, the whole status pass is a no-op: empty ledger. -/
theorem syncStatusesCore_skip_all (path kindLabel : String)
    (mkCall : Status → ApiCall)
    (mkEntry : Status → Option String → CreatedStatusEntry)
    (prod dev2 : List Status)
    (post : Nat → Except String (Option String))
    (del : Nat → Except String Unit)
    (h1 : ∀ p ∈ prod, hasKey (statusDict dev2) p.label = true)
    (h2 : ∀ kv ∈ statusDict dev2,
      prod.any (fun q => decide (q.label = kv.1)) = true) :
    (syncStatusesCore path kindLabel mkCall mkEntry prod (.ok dev2) post
      del).created = [] ∧
    (syncStatusesCore path kindLabel mkCall mkEntry prod (.ok dev2) post
      del).removed = [] ∧
    (syncStatusesCore path kindLabel mkCall mkEntry prod (.ok dev2) post
      del).failed = [] := by
  unfold syncStatusesCore
  by_cases hpe : prod.isEmpty
  · rw [if_pos hpe]
    exact ⟨rfl, rfl, rfl⟩
  · rw [if_neg hpe]
    dsimp only
    have e1 : prod.foldl (statusCreateStep mkCall mkEntry (statusDict dev2)
        post) { calls := [.getCall path] } =
        ({ calls := [.getCall path] } : StatusAcc) :=
      foldl_pres id _ prod _ (fun a st hst => by
        unfold statusCreateStep
        rw [if_pos (h1 st hst)])
    rw [e1]
    have e2 : (statusDict dev2).foldl (statusRemoveStep path prod del)
        ({ calls := [.getCall path] } : StatusAcc) =
        ({ calls := [.getCall path] } : StatusAcc) :=
      foldl_pres id _ (statusDict dev2) _ (fun a kv hkv => by
        unfold statusRemoveStep
        rw [if_pos (h2 kv hkv)])
    rw [e2]
    exact ⟨rfl, rfl, rfl⟩

/-- After a first status run with all calls succeeding, fresh server ids,
and well-formed dev data (distinct labels and ids), the resulting dev state
carries exactly the production labels. -/
theorem statusSecondRunFacts (path kindLabel : String)
    (mkCall : Status → ApiCall)
    (mkEntry : Status → Option String → CreatedStatusEntry)
    (prod devData : List Status)
    (post : Nat → Except String (Option String))
    (del : Nat → Except String Unit) (hne : prod ≠ [])
    (hmkE : ∀ s i, (mkEntry s i).label = s.label ∧ (mkEntry s i).id = i)
    (hp : ∀ n, ∃ i, post n = Except.ok i)
    (hfresh : ∀ n i, post n = Except.ok i → ∀ s ∈ devData, ¬s.id = i)
    (hd : ∀ n, del n = Except.ok ())
    (hlab : (devData.map Status.label).Nodup)
    (hid : (devData.map Status.id).Nodup) :
    (∀ p ∈ prod, (statusDevAfter devData (syncStatusesCore path kindLabel
        mkCall mkEntry prod (.ok devData) post del)).any
      (fun s => decide (s.label = p.label)) = true) ∧
    (∀ s2 ∈ statusDevAfter devData (syncStatusesCore path kindLabel mkCall
        mkEntry prod (.ok devData) post del),
      prod.any (fun q => decide (q.label = s2.label)) = true) := by
  unfold syncStatusesCore
  rw [if_neg (by simpa using hne)]
  dsimp only
  unfold statusDevAfter
  dsimp only
  have hc2cr := foldl_pres (fun a : StatusAcc => a.created)
    (statusRemoveStep path prod del) (statusDict devData)
    (prod.foldl (statusCreateStep mkCall mkEntry (statusDict devData) post)
      { calls := [.getCall path] })
    (fun s' a _ => statusRemoveStep_created path prod del s' a)
  have hc1rm := foldl_pres (fun a : StatusAcc => a.removed)
    (statusCreateStep mkCall mkEntry (statusDict devData) post) prod
    { calls := [.getCall path] }
    (fun s' a _ => statusCreateStep_removed mkCall mkEntry
      (statusDict devData) post s' a)
  simp only [] at hc2cr hc1rm
  have hFC : ∀ e ∈ (prod.foldl (statusCreateStep mkCall mkEntry
      (statusDict devData) post) { calls := [.getCall path] }).created,
      (∃ p ∈ prod, e.label = p.label) ∧ ∀ s ∈ devData, ¬s.id = e.id :=
    statusCreateFold_created_facts mkCall mkEntry (statusDict devData) post
      prod devData { calls := [.getCall path] } hmkE hfresh (by simp)
  have hFR : ∀ e ∈ ((statusDict devData).foldl (statusRemoveStep path prod
      del) (prod.foldl (statusCreateStep mkCall mkEntry (statusDict devData)
      post) { calls := [.getCall path] })).removed,
      ∃ s ∈ devData, e.id = s.id ∧ s.label = e.label ∧
        prod.any (fun p => decide (p.label = e.label)) = false :=
    statusRemoveFold_removed_facts path prod devData del (statusDict devData)
      _ (statusDict_mem devData) (by
        rw [hc1rm]
        simp)
  have hCovC := statusCreateFold_covers mkCall mkEntry (statusDict devData)
    post prod { calls := [.getCall path] } hmkE hp
  have hCovR := statusRemoveFold_covers path prod del (statusDict devData)
    (prod.foldl (statusCreateStep mkCall mkEntry (statusDict devData) post)
      { calls := [.getCall path] }) hd
  constructor
  · intro p hpp
    rw [List.any_eq_true]
    by_cases hk : hasKey (statusDict devData) p.label = true
    · rw [statusDict_hasKey, List.any_eq_true] at hk
      rcases hk with ⟨s, hs, hsl⟩
      simp only [decide_eq_true_eq] at hsl
      have hsurv : (((statusDict devData).foldl (statusRemoveStep path prod
          del) (prod.foldl (statusCreateStep mkCall mkEntry
          (statusDict devData) post)
          { calls := [.getCall path] })).removed.any
          (fun rm => decide (rm.id = s.id))) = false := by
        rcases Bool.eq_false_or_eq_true (((statusDict devData).foldl
            (statusRemoveStep path prod del) (prod.foldl (statusCreateStep
            mkCall mkEntry (statusDict devData) post)
            { calls := [.getCall path] })).removed.any
            (fun rm => decide (rm.id = s.id))) with htr | hfa
        · exfalso
          rw [List.any_eq_true] at htr
          rcases htr with ⟨rm, hrm, hrme⟩
          simp only [decide_eq_true_eq] at hrme
          rcases hFR rm hrm with ⟨s', hs', hid', hlb', hpr'⟩
          have hss : s' = s :=
            List.inj_on_of_nodup_map hid hs' hs (hid'.symm.trans hrme)
          subst hss
          rw [List.any_eq_false] at hpr'
          exact hpr' p hpp (by simp [hsl ▸ hlb'])
        · exact hfa
      refine ⟨s, List.mem_filter.mpr ⟨List.mem_append.mpr (Or.inl hs), ?_⟩,
        by simp [hsl]⟩
      rw [hsurv]
      rfl
    · have hk' : hasKey (statusDict devData) p.label = false :=
        Bool.eq_false_iff.mpr hk
      rcases hCovC p hpp hk' with ⟨e, he, hel⟩
      have hfreshE := (hFC e he).2
      have hsurv : (((statusDict devData).foldl (statusRemoveStep path prod
          del) (prod.foldl (statusCreateStep mkCall mkEntry
          (statusDict devData) post)
          { calls := [.getCall path] })).removed.any
          (fun rm => decide (rm.id =
            ({ id := e.id, label := e.label, type := e.type.join } :
              Status).id))) = false := by
        rcases Bool.eq_false_or_eq_true (((statusDict devData).foldl
            (statusRemoveStep path prod del) (prod.foldl (statusCreateStep
            mkCall mkEntry (statusDict devData) post)
            { calls := [.getCall path] })).removed.any
            (fun rm => decide (rm.id =
              ({ id := e.id, label := e.label, type := e.type.join } :
                Status).id))) with htr | hfa
        · exfalso
          rw [List.any_eq_true] at htr
          rcases htr with ⟨rm, hrm, hrme⟩
          simp only [decide_eq_true_eq] at hrme
          rcases hFR rm hrm with ⟨s', hs', hid', _, _⟩
          exact hfreshE s' hs' (hid' ▸ hrme)
        · exact hfa
      refine ⟨{ id := e.id, label := e.label, type := e.type.join },
        List.mem_filter.mpr ⟨List.mem_append.mpr (Or.inr ?_), ?_⟩, ?_⟩
      · rw [hc2cr]
        exact List.mem_map_of_mem _ he
      · rw [hsurv]
        rfl
      · simp [hel]
  · intro s2 hs2
    rcases List.mem_filter.mp hs2 with ⟨hmem, hcond⟩
    rcases List.mem_append.mp hmem with hdev | hrec
    · rcases Bool.eq_false_or_eq_true (prod.any (fun q =>
          decide (q.label = s2.label))) with hT | hF
      · exact hT
      · exfalso
        have hds : (s2.label, s2) ∈ statusDict devData :=
          statusDict_self devData hlab s2 hdev
        have hrem := hCovR (s2.label, s2) hds hF
        rw [Bool.not_eq_true'] at hcond
        rw [List.any_eq_false] at hcond
        exact hcond ⟨s2.label, s2.id⟩ hrem (by simp)
    · rw [hc2cr] at hrec
      rcases List.mem_map.mp hrec with ⟨e, he, hee⟩
      rcases (hFC e he).1 with ⟨p, hpp, hel⟩
      rw [List.any_eq_true]
      refine ⟨p, hpp, ?_⟩
      rw [← hee]
      simp [hel]

/-- A second status run against the first run's resulting dev state is all
skips. -/
theorem syncStatusesCore_idempotent (path kindLabel : String)
    (mkCall : Status → ApiCall)
    (mkEntry : Status → Option String → CreatedStatusEntry)
    (prod devData : List Status)
    (post post2 : Nat → Except String (Option String))
    (del del2 : Nat → Except String Unit)
    (hmkE : ∀ s i, (mkEntry s i).label = s.label ∧ (mkEntry s i).id = i)
    (hp : ∀ n, ∃ i, post n = Except.ok i)
    (hfresh : ∀ n i, post n = Except.ok i → ∀ s ∈ devData, ¬s.id = i)
    (hd : ∀ n, del n = Except.ok ())
    (hlab : (devData.map Status.label).Nodup)
    (hid : (devData.map Status.id).Nodup) :
    (syncStatusesCore path kindLabel mkCall mkEntry prod
      (.ok (statusDevAfter devData (syncStatusesCore path kindLabel mkCall
        mkEntry prod (.ok devData) post del))) post2 del2).created = [] ∧
    (syncStatusesCore path kindLabel mkCall mkEntry prod
      (.ok (statusDevAfter devData (syncStatusesCore path kindLabel mkCall
        mkEntry prod (.ok devData) post del))) post2 del2).removed = [] ∧
    (syncStatusesCore path kindLabel mkCall mkEntry prod
      (.ok (statusDevAfter devData (syncStatusesCore path kindLabel mkCall
        mkEntry prod (.ok devData) post del))) post2 del2).failed = [] := by
  by_cases hne : prod = []
  · subst hne
    exact ⟨rfl, rfl, rfl⟩
  · have facts := statusSecondRunFacts path kindLabel mkCall mkEntry prod
      devData post del hne hmkE hp hfresh hd hlab hid
    refine syncStatusesCore_skip_all path kindLabel mkCall mkEntry prod _
      post2 del2 ?_ ?_
    · intro p hpp
      rw [statusDict_hasKey]
      exact facts.1 p hpp
    · intro kv hkv
      rcases statusDict_mem _ kv hkv with ⟨hm, hl⟩
      have h2 := facts.2 kv.2 hm
      rw [hl] at h2
      exact h2

/-! ## Claim C2 -/

/-- C2, counterexample: idempotence fails when the target holds two
statuses with the same label.  Dev has two `"Old"` lead statuses; the first
run (every call succeeding, no external changes) deletes only the one the
dict comprehension kept, so the second run still produces a `Removed`
outcome — the claim demands zero. -/
theorem c2_counterexample :
    (syncLeadStatuses [{ id := some "s1", label := some "New" }]
      (.ok (statusDevAfter
        [{ id := some "a", label := some "Old" },
         { id := some "b", label := some "Old" }]
        (syncLeadStatuses [{ id := some "s1", label := some "New" }]
          (.ok [{ id := some "a", label := some "Old" },
                { id := some "b", label := some "Old" }])
          (fun _ => .ok (some "n1")) (fun _ => .ok ()))))
      (fun _ => .ok (some "n2")) (fun _ => .ok ())).removed ≠ [] := by
  decide

/-- C2, amended: running the full reconciliation twice with no intervening
external changes (the second run's target state being the first run's
result) yields zero `Created` and zero `Removed` outcomes on the second
run, provided the first run's calls all succeed with fresh server ids, the
second run's existence fetches succeed, and the fetched target status
collections have pairwise-distinct labels and ids. -/
theorem c2_idempotent
    (prodTypes devTypes : List ActivityType)
    (postT1 postT2 : Nat → Except String (Option String))
    (allFields devFields : List (String × List CustomField))
    (getOk1 getOk2 : Nat → Bool)
    (postF1 postF2 : Nat → Except String (Option String))
    (prodLead devLead prodOpp devOpp : List Status)
    (postL1 postL2 postO1 postO2 : Nat → Except String (Option String))
    (delL1 delL2 delO1 delO2 : Nat → Except String Unit)
    (hpT : ∀ n, ∃ i, postT1 n = Except.ok i)
    (hg1 : ∀ n, getOk1 n = true)
    (hpF : ∀ n, ∃ i, postF1 n = Except.ok i)
    (hg2 : ∀ n, getOk2 n = true)
    (hpL : ∀ n, ∃ i, postL1 n = Except.ok i)
    (hfreshL : ∀ n i, postL1 n = Except.ok i → ∀ s ∈ devLead, ¬s.id = i)
    (hdL : ∀ n, delL1 n = Except.ok ())
    (hlabL : (devLead.map Status.label).Nodup)
    (hidL : (devLead.map Status.id).Nodup)
    (hpO : ∀ n, ∃ i, postO1 n = Except.ok i)
    (hfreshO : ∀ n i, postO1 n = Except.ok i → ∀ s ∈ devOpp, ¬s.id = i)
    (hdO : ∀ n, delO1 n = Except.ok ())
    (hlabO : (devOpp.map Status.label).Nodup)
    (hidO : (devOpp.map Status.id).Nodup) :
    (createCustomActivityTypes prodTypes
      (.ok (typeDevAfter devTypes (createCustomActivityTypes prodTypes
        (.ok devTypes) postT1))) postT2).created = [] ∧
    (createCustomFields allFields
      ((createCustomActivityTypes prodTypes
        (.ok (typeDevAfter devTypes (createCustomActivityTypes prodTypes
          (.ok devTypes) postT1))) postT2).mapping.getD [])
      (createCustomFields allFields
        ((createCustomActivityTypes prodTypes (.ok devTypes)
          postT1).mapping.getD []) devFields getOk1 postF1).dev
      getOk2 postF2).created = [] ∧
    ((syncLeadStatuses prodLead
      (.ok (statusDevAfter devLead (syncLeadStatuses prodLead (.ok devLead)
        postL1 delL1))) postL2 delL2).created = [] ∧
     (syncLeadStatuses prodLead
      (.ok (statusDevAfter devLead (syncLeadStatuses prodLead (.ok devLead)
        postL1 delL1))) postL2 delL2).removed = []) ∧
    ((syncOppStatuses prodOpp
      (.ok (statusDevAfter devOpp (syncOppStatuses prodOpp (.ok devOpp)
        postO1 delO1))) postO2 delO2).created = [] ∧
     (syncOppStatuses prodOpp
      (.ok (statusDevAfter devOpp (syncOppStatuses prodOpp (.ok devOpp)
        postO1 delO1))) postO2 delO2).removed = []) := by
  have hcovT := typesRun_covers prodTypes devTypes postT1 hpT
  have hsecT := typesRun_second prodTypes
    (typeDevAfter devTypes (createCustomActivityTypes prodTypes
      (.ok devTypes) postT1)) postT2 hcovT
  have hkeys1 := typesRun_keys_iff prodTypes (.ok devTypes) postT1 hpT
  have hcov1 := createCustomFields_covers allFields
    ((createCustomActivityTypes prodTypes (.ok devTypes)
      postT1).mapping.getD []) devFields getOk1 postF1 hg1 hpF
  refine ⟨hsecT.1, ?_, ?_, ?_⟩
  · refine (createCustomFields_second allFields _ _ getOk2 postF2 hg2 ?_).1
    intro tf htf f hf
    rcases hcov1 tf htf f hf with h | ⟨hft, h⟩
    · exact Or.inl h
    · right
      refine ⟨hft, ?_⟩
      rcases h with h | h
      · exact Or.inl h
      · right
        rcases Bool.eq_false_or_eq_true (hasKey
            ((createCustomActivityTypes prodTypes
              (.ok (typeDevAfter devTypes (createCustomActivityTypes
                prodTypes (.ok devTypes) postT1))) postT2).mapping.getD [])
            (f.custom_activity_type_id.getD "")) with h2 | h2
        · exfalso
          have hmem := (hsecT.2.2 _).mp h2
          have h1 := (hkeys1 _).mpr hmem
          rw [h1] at h
          cases h
        · exact h2
  · exact ⟨(syncStatusesCore_idempotent "status/lead/" "lead"
      (fun s => .postLeadStatus ⟨s.label⟩) (fun s i => ⟨s.label, i, none⟩)
      prodLead devLead postL1 postL2 delL1 delL2 (fun s i => ⟨rfl, rfl⟩)
      hpL hfreshL hdL hlabL hidL).1,
    (syncStatusesCore_idempotent "status/lead/" "lead"
      (fun s => .postLeadStatus ⟨s.label⟩) (fun s i => ⟨s.label, i, none⟩)
      prodLead devLead postL1 postL2 delL1 delL2 (fun s i => ⟨rfl, rfl⟩)
      hpL hfreshL hdL hlabL hidL).2.1⟩
  · exact ⟨(syncStatusesCore_idempotent "status/opportunity/" "opportunity"
      (fun s => .postOppStatus (buildOppStatusPayload s))
      (fun s i => ⟨s.label, i, some s.type⟩)
      prodOpp devOpp postO1 postO2 delO1 delO2 (fun s i => ⟨rfl, rfl⟩)
      hpO hfreshO hdO hlabO hidO).1,
    (syncStatusesCore_idempotent "status/opportunity/" "opportunity"
      (fun s => .postOppStatus (buildOppStatusPayload s))
      (fun s i => ⟨s.label, i, some s.type⟩)
      prodOpp devOpp postO1 postO2 delO1 delO2 (fun s i => ⟨rfl, rfl⟩)
      hpO hfreshO hdO hlabO hidO).2.1⟩

/-- C2 witness: the amended idempotence theorem applied at a concrete
well-formed run (all calls succeed, fresh ids, distinct dev labels/ids). -/
theorem c2_witness :
    (syncLeadStatuses [{ id := some "p1", label := some "New" }]
      (.ok (statusDevAfter [{ id := some "d1", label := some "Old" }]
        (syncLeadStatuses [{ id := some "p1", label := some "New" }]
          (.ok [{ id := some "d1", label := some "Old" }])
          (fun _ => .ok (some "n1")) (fun _ => .ok ()))))
      (fun _ => .ok (some "n2")) (fun _ => .ok ())).created = [] ∧
    (syncLeadStatuses [{ id := some "p1", label := some "New" }]
      (.ok (statusDevAfter [{ id := some "d1", label := some "Old" }]
        (syncLeadStatuses [{ id := some "p1", label := some "New" }]
          (.ok [{ id := some "d1", label := some "Old" }])
          (fun _ => .ok (some "n1")) (fun _ => .ok ()))))
      (fun _ => .ok (some "n2")) (fun _ => .ok ())).removed = [] :=
  (c2_idempotent
    [{ id := some "at1", name := some "Call" }] []
    (fun _ => .ok (some "at9")) (fun _ => .ok none)
    [("activity", [{ name := some "N", type := some "text", custom_activity_type_id := some "at1" }])]
    [] (fun _ => true) (fun _ => true)
    (fun _ => .ok (some "f9")) (fun _ => .ok none)
    [{ id := some "p1", label := some "New" }]
    [{ id := some "d1", label := some "Old" }]
    [{ id := some "q1", label := some "Won", type := some "won" }] []
    (fun _ => .ok (some "n1")) (fun _ => .ok (some "n2"))
    (fun _ => .ok (some "w1")) (fun _ => .ok none)
    (fun _ => .ok ()) (fun _ => .ok ()) (fun _ => .ok ()) (fun _ => .ok ())
    (fun _ => ⟨some "at9", rfl⟩) (fun _ => rfl) (fun _ => ⟨some "f9", rfl⟩)
    (fun _ => rfl) (fun _ => ⟨some "n1", rfl⟩)
    (fun n i h s hs => by
      cases h
      simp only [List.mem_singleton] at hs
      subst hs
      decide)
    (fun _ => rfl) (by decide) (by decide)
    (fun _ => ⟨some "w1", rfl⟩)
    (fun n i h s hs => by simp at hs)
    (fun _ => rfl) (by decide) (by decide)).2.2.1

/-! ## Claim C5 -/

/-- C5, counterexample: the claim says the returned ledger always carries a
`skipped` list, "including for the status kinds", and that each considered
entity gets exactly one outcome.  But `sync_lead_statuses` returns
`{'created', 'removed', 'failed'}` with no `skipped` key, and a status
present in both environments (here `"New"`) appears in none of the outcome
lists. -/
theorem c5_counterexample :
    "skipped" ∉ (syncLeadStatuses [{ id := some "p1", label := some "New" }]
      (.ok [{ id := some "a", label := some "New" }])
      (fun _ => .ok (some "x")) (fun _ => .ok ())).ledgerKeys ∧
    (syncLeadStatuses [{ id := some "p1", label := some "New" }]
      (.ok [{ id := some "a", label := some "New" }])
      (fun _ => .ok (some "x")) (fun _ => .ok ())).created = [] ∧
    (syncLeadStatuses [{ id := some "p1", label := some "New" }]
      (.ok [{ id := some "a", label := some "New" }])
      (fun _ => .ok (some "x")) (fun _ => .ok ())).removed = [] ∧
    (syncLeadStatuses [{ id := some "p1", label := some "New" }]
      (.ok [{ id := some "a", label := some "New" }])
      (fun _ => .ok (some "x")) (fun _ => .ok ())).failed = [] := by
  decide

/-- C5, amended: the custom-field and activity-type passes assign exactly
one outcome from {Created, Skipped, Failed} to each entity considered and
return `{created, skipped, failed}` ledgers (plus `mapping` for a non-falsy
activity-type input); the status passes return `{created, removed, failed}`
with no `skipped` list, assigning exactly one outcome to each source-only
and target-only status while in-both statuses receive no recorded outcome. -/
theorem c5_one_outcome_and_ledger_shape :
    (∀ (allFields : List (String × List CustomField))
        (m : List (String × Option String))
        (dev : List (String × List CustomField)) (getOk : Nat → Bool)
        (post : Nat → Except String (Option String)),
      (createCustomFields allFields m dev getOk post).created.length +
        (createCustomFields allFields m dev getOk post).failed.length +
        (createCustomFields allFields m dev getOk post).skipped.length =
        (allFields.map (fun p => p.2.length)).sum ∧
      (createCustomFields allFields m dev getOk post).ledgerKeys =
        ["created", "failed", "skipped"]) ∧
    (∀ (src : List ActivityType) (fetch : Except String (List ActivityType))
        (post : Nat → Except String (Option String)),
      (createCustomActivityTypes src fetch post).created.length +
        (createCustomActivityTypes src fetch post).failed.length +
        (createCustomActivityTypes src fetch post).skipped.length =
        src.length ∧
      (createCustomActivityTypes src fetch post).ledgerKeys =
        (if src.isEmpty then ["created", "failed", "skipped"]
         else ["created", "failed", "skipped", "mapping"])) ∧
    (∀ (prod devData : List Status)
        (post : Nat → Except String (Option String))
        (del : Nat → Except String Unit), prod ≠ [] →
      "skipped" ∉ (syncLeadStatuses prod (.ok devData) post del).ledgerKeys ∧
      (syncLeadStatuses prod (.ok devData) post del).created.length +
        (syncLeadStatuses prod (.ok devData) post del).removed.length +
        (syncLeadStatuses prod (.ok devData) post del).failed.length =
        (prod.filter (fun s => !hasKey (statusDict devData) s.label)).length +
        ((statusDict devData).filter (fun kv =>
          !prod.any (fun p => decide (p.label = kv.1)))).length) ∧
    (∀ (prod devData : List Status)
        (post : Nat → Except String (Option String))
        (del : Nat → Except String Unit), prod ≠ [] →
      "skipped" ∉ (syncOppStatuses prod (.ok devData) post del).ledgerKeys ∧
      (syncOppStatuses prod (.ok devData) post del).created.length +
        (syncOppStatuses prod (.ok devData) post del).removed.length +
        (syncOppStatuses prod (.ok devData) post del).failed.length =
        (prod.filter (fun s => !hasKey (statusDict devData) s.label)).length +
        ((statusDict devData).filter (fun kv =>
          !prod.any (fun p => decide (p.label = kv.1)))).length) := by
  refine ⟨?_, ?_, ?_, ?_⟩
  · intro allFields m dev getOk post
    exact ⟨createCustomFields_counts allFields m dev getOk post, rfl⟩
  · intro src fetch post
    exact ⟨createCustomActivityTypes_counts src fetch post,
      createCustomActivityTypes_ledgerKeys src fetch post⟩
  · intro prod devData post del hne
    exact ⟨by simp [StatusRun.ledgerKeys], syncStatusesCore_counts "status/lead/" "lead"
      (fun s => .postLeadStatus ⟨s.label⟩) (fun s i => ⟨s.label, i, none⟩)
      prod devData post del hne⟩
  · intro prod devData post del hne
    exact ⟨by simp [StatusRun.ledgerKeys], syncStatusesCore_counts "status/opportunity/"
      "opportunity" (fun s => .postOppStatus (buildOppStatusPayload s))
      (fun s i => ⟨s.label, i, some s.type⟩) prod devData post del hne⟩

/-! ## Claim C6 -/

/-- C6: the create-missing-only passes (custom fields, activity types) never
issue a delete call and their ledgers carry no `removed` list; in the
create-and-remove passes (lead and opportunity statuses) every target-only
dev dict entry ends in exactly one of `Removed`/`Failed`. -/
theorem c6_removal_policy :
    (∀ (allFields : List (String × List CustomField))
        (m : List (String × Option String))
        (dev : List (String × List CustomField)) (getOk : Nat → Bool)
        (post : Nat → Except String (Option String)),
      (∀ c ∈ (createCustomFields allFields m dev getOk post).calls,
        c.isDelete = false) ∧
      "removed" ∉ (createCustomFields allFields m dev getOk post).ledgerKeys) ∧
    (∀ (src : List ActivityType) (fetch : Except String (List ActivityType))
        (post : Nat → Except String (Option String)),
      (∀ c ∈ (createCustomActivityTypes src fetch post).calls,
        c.isDelete = false) ∧
      "removed" ∉ (createCustomActivityTypes src fetch post).ledgerKeys) ∧
    (∀ (prod devData : List Status)
        (post : Nat → Except String (Option String))
        (del : Nat → Except String Unit) (kv : Option String × Status),
      kv ∈ statusDict devData →
      prod.any (fun p => decide (p.label = kv.1)) = false → prod ≠ [] →
      ((syncLeadStatuses prod (.ok devData) post del).removed.filter
          (fun e => decide (e.label = kv.1))).length +
        ((syncLeadStatuses prod (.ok devData) post del).failed.filter
          (fun e => decide (e.label = kv.1))).length = 1) ∧
    (∀ (prod devData : List Status)
        (post : Nat → Except String (Option String))
        (del : Nat → Except String Unit) (kv : Option String × Status),
      kv ∈ statusDict devData →
      prod.any (fun p => decide (p.label = kv.1)) = false → prod ≠ [] →
      ((syncOppStatuses prod (.ok devData) post del).removed.filter
          (fun e => decide (e.label = kv.1))).length +
        ((syncOppStatuses prod (.ok devData) post del).failed.filter
          (fun e => decide (e.label = kv.1))).length = 1) := by
  refine ⟨?_, ?_, ?_, ?_⟩
  · intro allFields m dev getOk post
    exact ⟨createCustomFields_no_delete allFields m dev getOk post,
      by simp [FieldAcc.ledgerKeys]⟩
  · intro src fetch post
    refine ⟨createCustomActivityTypes_no_delete src fetch post, ?_⟩
    rw [createCustomActivityTypes_ledgerKeys]
    split
    · decide
    · decide
  · intro prod devData post del kv hkv hk hne
    exact syncStatusesCore_target_only "status/lead/" "lead"
      (fun s => .postLeadStatus ⟨s.label⟩) (fun s i => ⟨s.label, i, none⟩)
      prod devData post del kv hkv hk hne
  · intro prod devData post del kv hkv hk hne
    exact syncStatusesCore_target_only "status/opportunity/" "opportunity"
      (fun s => .postOppStatus (buildOppStatusPayload s))
      (fun s i => ⟨s.label, i, some s.type⟩)
      prod devData post del kv hkv hk hne

/-- C6 witness: a concrete target-only status (`"Old"`) lands in exactly one
of `Removed`/`Failed`. -/
theorem c6_witness :
    (some "Old", ({ id := some "d1", label := some "Old" } : Status)) ∈
      statusDict [{ id := some "d1", label := some "Old" }] ∧
    ([{ id := some "p1", label := some "New" }].any
      (fun p : Status => decide (p.label = some "Old"))) = false ∧
    ((syncLeadStatuses [{ id := some "p1", label := some "New" }]
        (.ok [{ id := some "d1", label := some "Old" }])
        (fun _ => .ok (some "n1")) (fun _ => .error "boom")).removed.filter
        (fun e => decide (e.label = some "Old"))).length +
      ((syncLeadStatuses [{ id := some "p1", label := some "New" }]
        (.ok [{ id := some "d1", label := some "Old" }])
        (fun _ => .ok (some "n1")) (fun _ => .error "boom")).failed.filter
        (fun e => decide (e.label = some "Old"))).length = 1 :=
  ⟨by decide, by decide, c6_removal_policy.2.2.1
    [{ id := some "p1", label := some "New" }]
    [{ id := some "d1", label := some "Old" }]
    (fun _ => .ok (some "n1")) (fun _ => .error "boom")
    (some "Old", { id := some "d1", label := some "Old" })
    (by decide) (by decide) (by decide)⟩

/-! ## Claim C7 -/

/-- C7: failure isolation.  For arbitrary create/delete outcomes (any
oracle): every custom field still receives exactly one outcome, so a
failing entity never aborts its pass; and the number of create calls issued
equals `|created| + |failed|`, so a failing entity was attempted exactly
once (no automatic retry).  Likewise for activity types, and for the lead
status sync counting both creates and deletes against
`|created| + |removed| + |failed|`; the lead sync moreover assigns exactly
one outcome to each source-only and each target-only status regardless of
failures. -/
theorem c7_failure_isolation :
    (∀ (allFields : List (String × List CustomField))
        (m : List (String × Option String))
        (dev : List (String × List CustomField)) (getOk : Nat → Bool)
        (post : Nat → Except String (Option String)),
      (createCustomFields allFields m dev getOk post).created.length +
        (createCustomFields allFields m dev getOk post).failed.length +
        (createCustomFields allFields m dev getOk post).skipped.length =
        (allFields.map (fun p => p.2.length)).sum ∧
      ((createCustomFields allFields m dev getOk post).calls.filter
          ApiCall.isPost).length =
        (createCustomFields allFields m dev getOk post).created.length +
        (createCustomFields allFields m dev getOk post).failed.length) ∧
    (∀ (src : List ActivityType) (fetch : Except String (List ActivityType))
        (post : Nat → Except String (Option String)),
      (createCustomActivityTypes src fetch post).created.length +
        (createCustomActivityTypes src fetch post).failed.length +
        (createCustomActivityTypes src fetch post).skipped.length =
        src.length ∧
      ((createCustomActivityTypes src fetch post).calls.filter
          ApiCall.isPost).length =
        (createCustomActivityTypes src fetch post).created.length +
        (createCustomActivityTypes src fetch post).failed.length) ∧
    (∀ (prod : List Status) (fetchDev : Except String (List Status))
        (post : Nat → Except String (Option String))
        (del : Nat → Except String Unit),
      ((syncLeadStatuses prod fetchDev post del).calls.filter
          ApiCall.isMutation).length =
        (syncLeadStatuses prod fetchDev post del).created.length +
        (syncLeadStatuses prod fetchDev post del).removed.length +
        (syncLeadStatuses prod fetchDev post del).failed.length) ∧
    (∀ (prod devData : List Status)
        (post : Nat → Except String (Option String))
        (del : Nat → Except String Unit), prod ≠ [] →
      (syncLeadStatuses prod (.ok devData) post del).created.length +
        (syncLeadStatuses prod (.ok devData) post del).removed.length +
        (syncLeadStatuses prod (.ok devData) post del).failed.length =
        (prod.filter (fun s => !hasKey (statusDict devData) s.label)).length +
        ((statusDict devData).filter (fun kv =>
          !prod.any (fun p => decide (p.label = kv.1)))).length) := by
  refine ⟨?_, ?_, ?_, ?_⟩
  · intro allFields m dev getOk post
    exact ⟨createCustomFields_counts allFields m dev getOk post,
      createCustomFields_posts allFields m dev getOk post⟩
  · intro src fetch post
    exact ⟨createCustomActivityTypes_counts src fetch post,
      createCustomActivityTypes_posts src fetch post⟩
  · intro prod fetchDev post del
    exact syncStatusesCore_mutations "status/lead/" "lead"
      (fun s => .postLeadStatus ⟨s.label⟩) (fun s i => ⟨s.label, i, none⟩)
      prod fetchDev post del (fun _ => rfl)
  · intro prod devData post del hne
    exact syncStatusesCore_counts "status/lead/" "lead"
      (fun s => .postLeadStatus ⟨s.label⟩) (fun s i => ⟨s.label, i, none⟩)
      prod devData post del hne

/-- C7 witness: the theorem applied at a concrete failing run (the only
create call fails, yet the entity is counted exactly once). -/
theorem c7_witness :
    [{ id := some "p1", label := some "Won" }] ≠ ([] : List Status) ∧
    (syncLeadStatuses [{ id := some "p1", label := some "Won" }]
        (.ok []) (fun _ => .error "transport") (fun _ => .ok ())).created.length +
      (syncLeadStatuses [{ id := some "p1", label := some "Won" }]
        (.ok []) (fun _ => .error "transport") (fun _ => .ok ())).removed.length +
      (syncLeadStatuses [{ id := some "p1", label := some "Won" }]
        (.ok []) (fun _ => .error "transport") (fun _ => .ok ())).failed.length =
      ([{ id := some "p1", label := some "Won" }].filter
        (fun s : Status => !hasKey (statusDict []) s.label)).length +
      ((statusDict []).filter (fun kv =>
        !(List.any [{ id := some "p1", label := some "Won" }]
          (fun p : Status => decide (p.label = kv.1))))).length :=
  ⟨by decide, c7_failure_isolation.2.2.2
    [{ id := some "p1", label := some "Won" }] []
    (fun _ => .error "transport") (fun _ => .ok ()) (by decide)⟩

/-- C5 witness: the amended theorem applied at a concrete run. -/
theorem c5_witness :
    [{ id := some "p1", label := some "New" }] ≠ ([] : List Status) ∧
    "skipped" ∉ (syncLeadStatuses [{ id := some "p1", label := some "New" }]
      (.ok []) (fun _ => .ok (some "x")) (fun _ => .ok ())).ledgerKeys :=
  ⟨by decide, (c5_one_outcome_and_ledger_shape.2.2.1
    [{ id := some "p1", label := some "New" }] []
    (fun _ => .ok (some "x")) (fun _ => .ok ()) (by decide)).1⟩

end CloseSync
